import Mathlib

/-!
# AzureHound collectors

A model of the collectors of `cmd/list-apps.go`, `cmd/list-resource-groups.go`,
`cmd/list-service-principal-owners.go` and of the orchestrator `listAll` of
`cmd/list-root.go`.

* A channel is the finite list of items it delivers before it is closed.
* A goroutine body is a `Proc`: the sequence of receives, sends and log calls it
  performs on the items its input streams deliver.  `Proc.sends` reads off what a
  goroutine emits when every send finds a receiver and nothing is cancelled;
  `Proc.step` is the blocking semantics of one scheduling step.
* The client is a record of the enumerators the collectors call; an enumerator is
  the list of results it streams.
-/

set_option linter.dupNamespace false

namespace AzureHound

/-! ## Data model -/

/-- The values of `enums.Kind` that the modelled collectors write or read. -/
inductive Kind where
  | KindAZApp
  | KindAZResourceGroup
  | KindAZServicePrincipal
  | KindAZServicePrincipalOwner
  | KindAZSubscription
  | KindAZSubscriptionUserAccessAdmin
  deriving DecidableEq, Repr

/-- An `error` value of Go: `none` is `nil`. -/
abbrev GoError := Option String

/-- The object `azure.Application`, opaque to the collector. -/
structure azure.Application where
  Id : String
  deriving DecidableEq, Repr

/-- The object `azure.ResourceGroup`, opaque to the collector. -/
structure azure.ResourceGroup where
  Id : String
  deriving DecidableEq, Repr

/-- The object `azure.Tenant`; `TenantInfo()` returns one. -/
structure azure.Tenant where
  TenantId : String
  DisplayName : String
  deriving DecidableEq, Repr

/-- The properties of `azure.RoleAssignment` read by the role filters. -/
structure azure.RoleAssignmentPropertiesWithScope where
  RoleDefinitionId : String
  deriving DecidableEq, Repr

/-- The object `azure.RoleAssignment`. -/
structure azure.RoleAssignment where
  Id : String
  Properties : azure.RoleAssignmentPropertiesWithScope
  deriving DecidableEq, Repr

/-- One item of the stream of `ListAzureADApps`: `Error` is `nil` on an ok item. -/
structure azure.ApplicationResult where
  Error : GoError
  Ok : azure.Application
  deriving DecidableEq, Repr

/-- One item of the stream of `ListAzureResourceGroups`. -/
structure azure.ResourceGroupResult where
  SubscriptionId : String
  Error : GoError
  Ok : azure.ResourceGroup
  deriving DecidableEq, Repr

/-- One item of the stream of `ListAzureADServicePrincipalOwners`; `Ok` is a raw
JSON message. -/
structure azure.ServicePrincipalOwnerResult where
  ServicePrincipalId : String
  Error : GoError
  Ok : String
  deriving DecidableEq, Repr

/-- One item of the stream of `ListRoleAssignmentsForResource`. -/
structure azure.RoleAssignmentResult where
  ParentId : String
  Error : GoError
  Ok : azure.RoleAssignment
  deriving DecidableEq, Repr

/-- The payload `models.App`. -/
structure models.App where
  Application : azure.Application
  TenantId : String
  TenantName : String
  deriving DecidableEq, Repr

/-- The payload `models.ResourceGroup`. -/
structure models.ResourceGroup where
  ResourceGroup : azure.ResourceGroup
  SubscriptionId : String
  deriving DecidableEq, Repr

/-- The payload `models.Subscription`: `Id` is the resource id, `SubscriptionId`
the subscription GUID; the collectors read nothing else. -/
structure models.Subscription where
  Id : String
  SubscriptionId : String
  deriving DecidableEq, Repr

/-- The payload `models.ServicePrincipal`; only the id is read by the collectors. -/
structure models.ServicePrincipal where
  Id : String
  deriving DecidableEq, Repr

/-- The payload `models.ServicePrincipalOwner`. -/
structure models.ServicePrincipalOwner where
  Owner : String
  ServicePrincipalId : String
  deriving DecidableEq, Repr

/-- The payload `models.ServicePrincipalOwners`: the aggregate of one parent. -/
structure models.ServicePrincipalOwners where
  Owners : List models.ServicePrincipalOwner
  ServicePrincipalId : String
  deriving DecidableEq, Repr

/-- The payload `models.SubscriptionUserAccessAdmin`. -/
structure models.SubscriptionUserAccessAdmin where
  UserAccessAdmin : azure.RoleAssignment
  SubscriptionId : String
  deriving DecidableEq, Repr

/-- The payload `models.SubscriptionUserAccessAdmins`: the aggregate of one parent. -/
structure models.SubscriptionUserAccessAdmins where
  UserAccessAdmins : List models.SubscriptionUserAccessAdmin
  SubscriptionId : String
  deriving DecidableEq, Repr

/-- The dynamic value held by `AzureWrapper.Data` (an `interface{}`): one of the
payload structs, or a value of some other type, named by `typeName`. -/
inductive Payload where
  | app (a : models.App)
  | resourceGroup (g : models.ResourceGroup)
  | subscription (s : models.Subscription)
  | servicePrincipal (p : models.ServicePrincipal)
  | servicePrincipalOwners (o : models.ServicePrincipalOwners)
  | subscriptionUserAccessAdmins (u : models.SubscriptionUserAccessAdmins)
  | other (typeName : String)
  deriving DecidableEq, Repr

/-- The envelope `AzureWrapper`. -/
structure AzureWrapper where
  Kind : Kind
  Data : Payload
  deriving DecidableEq, Repr

/-- A value travelling on a `chan interface{}`: an `AzureWrapper`, or a value of
any other dynamic type. -/
inductive Dyn where
  | wrapper (w : AzureWrapper)
  | foreign (typeName : String)
  deriving DecidableEq, Repr

/-- The part of `client.AzureClient` the modelled collectors call.  An enumerator
is given by the list of results it streams before closing its channel. -/
structure AzureClient where
  TenantInfo : azure.Tenant
  ListAzureADApps : List azure.ApplicationResult
  ListAzureResourceGroups : String → List azure.ResourceGroupResult
  ListAzureADServicePrincipalOwners : String → List azure.ServicePrincipalOwnerResult
  ListRoleAssignmentsForResource : String → List azure.RoleAssignmentResult

/-! ## Goroutines -/

/-- A goroutine body, unrolled over the items its input streams deliver.
`recv next closed` is a receive from a cancellable stream that has an item left:
the body goes on as `next` with the item, or as `closed` when the stream shows
itself closed instead.  `send v k` is the unconditional send `ch <- v`.  `done`
is the return of the goroutine (its deferred calls run); `panic` is a run-time
panic. -/
inductive Proc (ο : Type) where
  | done
  | panic
  | log (msg : String) (k : Proc ο)
  | send (v : ο) (k : Proc ο)
  | recv (next closed : Proc ο)
  deriving Repr

namespace Proc

variable {ο : Type}

/-- The values sent, in order, when every send is received and every stream is
read to its end. -/
def sends : Proc ο → List ο
  | done => []
  | panic => []
  | log _ k => sends k
  | send v k => v :: sends k
  | recv next _ => sends next

/-- The messages logged, in order, on the same run. -/
def logs : Proc ο → List String
  | done => []
  | panic => []
  | log msg k => msg :: logs k
  | send _ k => logs k
  | recv next _ => logs next

/-- The number of items taken from the input streams on the same run. -/
def recvs : Proc ο → Nat
  | done => 0
  | panic => 0
  | log _ k => recvs k
  | send _ k => recvs k
  | recv next _ => recvs next + 1

/-- Whether the run ends in a return (true) or in a panic (false). -/
def returns : Proc ο → Bool
  | done => true
  | panic => false
  | log _ k => returns k
  | send _ k => returns k
  | recv next _ => returns next

end Proc

/-! ## `listApps` (`cmd/list-apps.go`) -/

/-- The record `listApps` builds from an ok item. -/
def appRecord (client : AzureClient) (item : azure.ApplicationResult) : AzureWrapper :=
  { Kind := Kind.KindAZApp
    Data := Payload.app
      { Application := item.Ok
        TenantId := client.TenantInfo.TenantId
        TenantName := client.TenantInfo.DisplayName } }

/-- The loop of the goroutine of `listApps` over the items of
`client.ListAzureADApps`; the deferred `close(out)` runs at `done`. -/
def listAppsLoop (client : AzureClient) : List azure.ApplicationResult → Proc AzureWrapper
  | [] => Proc.log "finished listing all apps" Proc.done
  | item :: rest =>
    Proc.recv
      (if item.Error ≠ none then
        Proc.log "unable to continue processing applications" Proc.done
      else
        Proc.log "found application"
          (Proc.send (appRecord client item) (listAppsLoop client rest)))
      (Proc.log "finished listing all apps" Proc.done)

/-- The goroutine of `listApps`. -/
def listAppsProc (client : AzureClient) : Proc AzureWrapper :=
  listAppsLoop client client.ListAzureADApps

/-- What a collector leaves on its output channel: the records received by a
consumer that reads the channel to its end, and whether the channel is closed in
the end. -/
structure Output where
  records : List AzureWrapper
  closed : Bool
  deriving DecidableEq, Repr

/-- The output of `listApps`: the records its goroutine sends on `out`, closed by
the deferred `close(out)` when the goroutine returns. -/
def listApps (client : AzureClient) : Output :=
  { records := (listAppsProc client).sends
    closed := (listAppsProc client).returns }

/-! ## Upstream unwrapping and the pipeline helpers -/

/-- The outcome of `result.(AzureWrapper).Data.(T)` where only the last
assertion is of the comma-ok form: the parent id, a failed assertion (`ok` is
false), or the panic of the first, single-valued assertion. -/
inductive Unwrapped where
  | id (parent : String)
  | failed
  | panicked
  deriving DecidableEq, Repr

/-- The unwrapping `result.(AzureWrapper).Data.(models.Subscription)` of
`listResourceGroups`, followed by the read of `subscription.SubscriptionId`. -/
def unwrapSubscription : Dyn → Unwrapped
  | Dyn.wrapper w =>
    match w.Data with
    | Payload.subscription s => Unwrapped.id s.SubscriptionId
    | _ => Unwrapped.failed
  | Dyn.foreign _ => Unwrapped.panicked

/-- The unwrapping `result.(AzureWrapper).Data.(models.ServicePrincipal)` of
`listServicePrincipalOwners`, followed by the read of `servicePrincipal.Id`. -/
def unwrapServicePrincipal : Dyn → Unwrapped
  | Dyn.wrapper w =>
    match w.Data with
    | Payload.servicePrincipal p => Unwrapped.id p.Id
    | _ => Unwrapped.failed
  | Dyn.foreign _ => Unwrapped.panicked

/-- Modelled from the spec: `pipeline.OrDone` is not among the sources.  It
forwards every item of its input; its closing on cancellation is the `closed`
branch of the `Proc.recv` that reads from it. -/
def OrDone {α : Type} (input : List α) : List α :=
  input

/-- Modelled from the spec: the number of items the forwarding stage
`pipeline.OrDone`, which is not among the sources, takes off its input when its
consumer receives `received` items from it and then receives no more.  The stage
forwards one item at a time and has to take an item before it can offer it: after
its consumer's last receive it takes the next item of its input, if there is
one, and holds it without ever delivering it. -/
def OrDoneTaken {α : Type} (input : List α) (received : Nat) : Nat :=
  min (received + 1) input.length

/-- Modelled from the spec: `pipeline.Demux` is not among the sources.  Each
input item is delivered to exactly one of the `n` outputs, and an output is the
subsequence of the input it received.  Which worker is reading when the item at
position `i` arrives is not determined by the program: `choice i` names it. -/
def Demux {α : Type} (choice : Nat → Nat) (n : Nat) (input : List α) : List (List α) :=
  (List.range n).map fun w =>
    (input.enum.filter fun p => choice p.1 % n = w).map Prod.snd

/-- The order in which a consumer receives from goroutines that send on one
shared channel.  `pending` holds what each goroutine has yet to send; each entry
of the schedule names the goroutine whose send is received next (an entry naming
a goroutine with nothing to send is skipped), and what is pending when the
schedule runs out is received goroutine by goroutine. -/
def interleave {α : Type} : List Nat → List (List α) → List α
  | [], pending => pending.flatten
  | w :: sched, pending =>
    match pending.get? w with
    | some (x :: xs) => x :: interleave sched (pending.set w xs)
    | _ => interleave sched pending

/-- The choices a run of a dependent collector leaves to the scheduler. -/
structure Schedule where
  demux : Nat → Nat
  out : List Nat

/-- The reader goroutine shared by the dependent collectors: it ranges over
`pipeline.OrDone(ctx.Done(), upstream)`, unwraps each item, sends the parent id
on `ids`, and on a failed assertion logs and returns.  The deferred `close(ids)`
runs at `done`. -/
def readerLoop (unwrap : Dyn → Unwrapped) (msg : String) : List Dyn → Proc String
  | [] => Proc.done
  | result :: rest =>
    Proc.recv
      (match unwrap result with
        | Unwrapped.id parent => Proc.send parent (readerLoop unwrap msg rest)
        | Unwrapped.failed => Proc.log msg Proc.done
        | Unwrapped.panicked => Proc.panic)
      Proc.done

/-- Assembles a dependent collector from its reader goroutine and the body of
its workers: `Demux` hands the ids to 25 workers, the workers send on the shared
`out`, and the last goroutine closes `out` after `wg.Wait()`, which needs every
worker to return; a worker returns once `ids` is closed. -/
def collect (sched : Schedule) (reader : Proc String)
    (worker : List String → Proc AzureWrapper) : Output :=
  let workers := (Demux sched.demux 25 reader.sends).map worker
  { records := interleave sched.out (workers.map Proc.sends)
    closed := reader.returns && workers.all Proc.returns }

/-! ## `listResourceGroups` (`cmd/list-resource-groups.go`) -/

/-- The first goroutine of `listResourceGroups`. -/
def resourceGroupsReader (subscriptions : List Dyn) : Proc String :=
  readerLoop unwrapSubscription "unable to continue enumerating resource groups"
    (OrDone subscriptions)

/-- The number of items `listResourceGroups` takes off its upstream: what the
`OrDone` stage started in its first goroutine takes while that goroutine receives
what it receives. -/
def resourceGroupsTaken (subscriptions : List Dyn) : Nat :=
  OrDoneTaken subscriptions (resourceGroupsReader subscriptions).recvs

/-- The record a worker of `listResourceGroups` builds from an ok item. -/
def resourceGroupRecord (item : azure.ResourceGroupResult) : AzureWrapper :=
  { Kind := Kind.KindAZResourceGroup
    Data := Payload.resourceGroup
      { ResourceGroup := item.Ok
        SubscriptionId := item.SubscriptionId } }

/-- The inner loop of a worker of `listResourceGroups` over the items of
`client.ListAzureResourceGroups(ctx, id, "")`; `k` is what follows the loop. -/
def resourceGroupsItems (k : Proc AzureWrapper) :
    List azure.ResourceGroupResult → Proc AzureWrapper
  | [] => Proc.log "finished listing resource groups" k
  | item :: more =>
    Proc.recv
      (if item.Error ≠ none then
        Proc.log "unable to continue processing resource groups for this subscription"
          (resourceGroupsItems k more)
      else
        Proc.log "found resource group"
          (Proc.send (resourceGroupRecord item) (resourceGroupsItems k more)))
      (Proc.log "finished listing resource groups" k)

/-- A worker goroutine of `listResourceGroups` over the ids of its stream. -/
def resourceGroupsWorker (client : AzureClient) : List String → Proc AzureWrapper
  | [] => Proc.done
  | id :: ids =>
    Proc.recv
      (resourceGroupsItems (resourceGroupsWorker client ids)
        (client.ListAzureResourceGroups id))
      Proc.done

/-- The collector `listResourceGroups`. -/
def listResourceGroups (sched : Schedule) (client : AzureClient)
    (subscriptions : List Dyn) : Output :=
  collect sched (resourceGroupsReader subscriptions) (resourceGroupsWorker client)

/-! ## `listServicePrincipalOwners` (`cmd/list-service-principal-owners.go`) -/

/-- The first goroutine of `listServicePrincipalOwners`. -/
def servicePrincipalOwnersReader (servicePrincipals : List Dyn) : Proc String :=
  readerLoop unwrapServicePrincipal
    "unable to continue enumerating service principal owners" (OrDone servicePrincipals)

/-- The number of items `listServicePrincipalOwners` takes off its upstream: what
the `OrDone` stage started in its first goroutine takes while that goroutine
receives what it receives. -/
def servicePrincipalOwnersTaken (servicePrincipals : List Dyn) : Nat :=
  OrDoneTaken servicePrincipals (servicePrincipalOwnersReader servicePrincipals).recvs

/-- The entry a worker of `listServicePrincipalOwners` builds from an ok item. -/
def servicePrincipalOwner (item : azure.ServicePrincipalOwnerResult) :
    models.ServicePrincipalOwner :=
  { Owner := item.Ok
    ServicePrincipalId := item.ServicePrincipalId }

/-- The envelope of an aggregate of `listServicePrincipalOwners`. -/
def servicePrincipalOwnersRecord (owners : models.ServicePrincipalOwners) : AzureWrapper :=
  { Kind := Kind.KindAZServicePrincipalOwner
    Data := Payload.servicePrincipalOwners owners }

/-- The inner loop of a worker of `listServicePrincipalOwners` over the items of
`client.ListAzureADServicePrincipalOwners`, appending to the aggregate `acc`; `k`
is what follows the loop, given the aggregate. -/
def servicePrincipalOwnersItems (k : models.ServicePrincipalOwners → Proc AzureWrapper)
    (acc : models.ServicePrincipalOwners) :
    List azure.ServicePrincipalOwnerResult → Proc AzureWrapper
  | [] => k acc
  | item :: more =>
    Proc.recv
      (if item.Error ≠ none then
        Proc.log "unable to continue processing owners for this service principal"
          (servicePrincipalOwnersItems k acc more)
      else
        Proc.log "found service principal owner"
          (servicePrincipalOwnersItems k
            { acc with Owners := acc.Owners ++ [servicePrincipalOwner item] } more))
      (k acc)

/-- A worker goroutine of `listServicePrincipalOwners` over the ids of its
stream: one aggregate is sent per id, after the inner loop. -/
def servicePrincipalOwnersWorker (client : AzureClient) : List String → Proc AzureWrapper
  | [] => Proc.done
  | id :: ids =>
    Proc.recv
      (servicePrincipalOwnersItems
        (fun owners =>
          Proc.send (servicePrincipalOwnersRecord owners)
            (Proc.log "finished listing service principal owners"
              (servicePrincipalOwnersWorker client ids)))
        { Owners := [], ServicePrincipalId := id }
        (client.ListAzureADServicePrincipalOwners id))
      Proc.done

/-- The collector `listServicePrincipalOwners`. -/
def listServicePrincipalOwners (sched : Schedule) (client : AzureClient)
    (servicePrincipals : List Dyn) : Output :=
  collect sched (servicePrincipalOwnersReader servicePrincipals)
    (servicePrincipalOwnersWorker client)

/-! ## `listSubscriptionUserAccessAdmins` -/

/-- The unwrapping of a subscription envelope to its resource id, the id that
`ListRoleAssignmentsForResource` takes. -/
def unwrapSubscriptionResource : Dyn → Unwrapped
  | Dyn.wrapper w =>
    match w.Data with
    | Payload.subscription s => Unwrapped.id s.Id
    | _ => Unwrapped.failed
  | Dyn.foreign _ => Unwrapped.panicked

/-- The envelope of an aggregate of `listSubscriptionUserAccessAdmins`. -/
def subscriptionUserAccessAdminsRecord (admins : models.SubscriptionUserAccessAdmins) :
    AzureWrapper :=
  { Kind := Kind.KindAZSubscriptionUserAccessAdmin
    Data := Payload.subscriptionUserAccessAdmins admins }

/-- Modelled from the spec: the inner loop of a worker of
`listSubscriptionUserAccessAdmins`, which is not among the sources.  In the
filtered-aggregate mode of the spec an error item is logged and skipped, and an
ok role assignment is appended to the aggregate of the parent when its
`roleDefinitionId` is the known constant `roleID`. -/
def subscriptionUserAccessAdminsItems (roleID : String)
    (k : models.SubscriptionUserAccessAdmins → Proc AzureWrapper)
    (acc : models.SubscriptionUserAccessAdmins) :
    List azure.RoleAssignmentResult → Proc AzureWrapper
  | [] => k acc
  | item :: more =>
    Proc.recv
      (if item.Error ≠ none then
        Proc.log "unable to continue processing user access admins for this subscription"
          (subscriptionUserAccessAdminsItems roleID k acc more)
      else if item.Ok.Properties.RoleDefinitionId = roleID then
        subscriptionUserAccessAdminsItems roleID k
          { acc with
            UserAccessAdmins := acc.UserAccessAdmins ++
              [{ UserAccessAdmin := item.Ok, SubscriptionId := item.ParentId }] }
          more
      else
        subscriptionUserAccessAdminsItems roleID k acc more)
      (k acc)

/-- Modelled from the spec: a worker of `listSubscriptionUserAccessAdmins`, which
is not among the sources.  For each parent id it calls
`client.ListRoleAssignmentsForResource` and, on stream end, emits one aggregate
record keyed by the parent id. -/
def subscriptionUserAccessAdminsWorker (roleID : String) (client : AzureClient) :
    List String → Proc AzureWrapper
  | [] => Proc.done
  | id :: ids =>
    Proc.recv
      (subscriptionUserAccessAdminsItems roleID
        (fun admins =>
          Proc.send (subscriptionUserAccessAdminsRecord admins)
            (Proc.log "finished listing user access admins"
              (subscriptionUserAccessAdminsWorker roleID client ids)))
        { UserAccessAdmins := [], SubscriptionId := id }
        (client.ListRoleAssignmentsForResource id))
      Proc.done

/-- Modelled from the spec: the collector `listSubscriptionUserAccessAdmins`,
which is not among the sources (its test is).  It is a dependent collector of
the spec in filtered-aggregate mode, with the shape of the dependent collectors
above; `roleID` stands for `constants.UserAccessAdminRoleID`. -/
def listSubscriptionUserAccessAdmins (roleID : String) (sched : Schedule)
    (client : AzureClient) (subscriptions : List Dyn) : Output :=
  collect sched
    (readerLoop unwrapSubscriptionResource
      "unable to continue enumerating subscription user access admins"
      (OrDone subscriptions))
    (subscriptionUserAccessAdminsWorker roleID client)

/-- The items of a stream of role assignments that are ok and whose role
definition id is `roleID`, in stream order. -/
def keptAssignments (roleID : String) (items : List azure.RoleAssignmentResult) :
    List azure.RoleAssignmentResult :=
  items.filter fun item =>
    decide (item.Error = none) && decide (item.Ok.Properties.RoleDefinitionId = roleID)

/-! ## Blocking semantics of a goroutine -/

/-- What the rest of the program offers a goroutine at one scheduling step:
whether `ctx.Done()` is closed, whether an input stream still hands over an item
after that (a select between a ready item and the signal may take either), and
whether a receiver is waiting on the channel the goroutine sends on. -/
structure Env where
  cancelled : Bool
  handsOver : Bool
  receiver : Bool
  deriving DecidableEq, Repr

namespace Proc

variable {ο : Type}

/-- One scheduling step of a goroutine, with the values delivered so far.  An
unconditional send completes only when a receiver is waiting and does not look at
the signal; a receive from a cancellable stream sees the stream closed once the
signal has fired, unless an item is still handed over. -/
def step (e : Env) : Proc ο × List ο → Proc ο × List ο
  | (done, out) => (done, out)
  | (panic, out) => (panic, out)
  | (log _ k, out) => (k, out)
  | (send v k, out) => if e.receiver then (k, out ++ [v]) else (send v k, out)
  | (recv next closed, out) =>
    if e.cancelled && !e.handsOver then (closed, out) else (next, out)

/-- Runs `n` steps from time `t` under the environment `env`. -/
def runFrom (env : Nat → Env) : Nat → Nat → Proc ο × List ο → Proc ο × List ο
  | _, 0, s => s
  | t, n + 1, s => runFrom env (t + 1) n (step (env t) s)

/-- Runs the first `n` steps of a goroutine under the environment `env`. -/
def run (env : Nat → Env) (n : Nat) (p : Proc ο) : Proc ο × List ο :=
  runFrom env 0 n (p, [])

/-- Whether the goroutine has returned. -/
def returned : Proc ο → Bool
  | done => true
  | _ => false

/-- A bound on the number of steps a goroutine takes. -/
def size : Proc ο → Nat
  | done => 0
  | panic => 0
  | log _ k => size k + 1
  | send _ k => size k + 1
  | recv next closed => max (size next) (size closed) + 1

/-- Whether no run of the goroutine, cancelled or not, ends in a panic. -/
def panicFree : Proc ο → Bool
  | done => true
  | panic => false
  | log _ k => panicFree k
  | send _ k => panicFree k
  | recv next closed => panicFree next && panicFree closed

end Proc

/-- The goroutines of a dependent collector in the blocking semantics: the reader
goroutine, whose deferred call closes `ids`, and the worker goroutines; the last
goroutine of the collector closes `out` after `wg.Wait()`. -/
structure Goroutines where
  reader : Proc String
  workers : List (Proc AzureWrapper)

namespace Goroutines

/-- The goroutines after `n` steps each, the reader under `envReader` and the
worker at position `w` under `envWorker w`. -/
def run (envReader : Nat → Env) (envWorker : Nat → Nat → Env) (n : Nat) (g : Goroutines) :
    Goroutines :=
  { reader := (g.reader.run envReader n).1
    workers := g.workers.enum.map fun p => (p.2.run (envWorker p.1) n).1 }

/-- Whether `ids` is closed: the reader goroutine has returned, so that its
deferred `close(ids)` has run. -/
def idsClosed (g : Goroutines) : Bool :=
  g.reader.returned

/-- Whether `out` is closed: every worker has returned, so that `wg.Wait()`
returns and `close(out)` runs. -/
def outClosed (g : Goroutines) : Bool :=
  g.workers.all Proc.returned

/-- A bound on the number of steps any of the goroutines takes. -/
def size (g : Goroutines) : Nat :=
  max g.reader.size ((g.workers.map Proc.size).foldr max 0)

end Goroutines

/-- The goroutines of `listResourceGroups`: its reader, and its 25 workers on the
streams `Demux` makes of the ids the reader sends. -/
def listResourceGroupsGoroutines (sched : Schedule) (client : AzureClient)
    (subscriptions : List Dyn) : Goroutines :=
  { reader := resourceGroupsReader subscriptions
    workers :=
      (Demux sched.demux 25 (resourceGroupsReader subscriptions).sends).map
        (resourceGroupsWorker client) }

/-- The goroutines of `listServicePrincipalOwners`: its reader, and its 25 workers
on the streams `Demux` makes of the ids the reader sends. -/
def listServicePrincipalOwnersGoroutines (sched : Schedule) (client : AzureClient)
    (servicePrincipals : List Dyn) : Goroutines :=
  { reader := servicePrincipalOwnersReader servicePrincipals
    workers :=
      (Demux sched.demux 25 (servicePrincipalOwnersReader servicePrincipals).sends).map
        (servicePrincipalOwnersWorker client) }

/-! ## The orchestrator `listAll` (`cmd/list-root.go`) -/

/-- The channels made in the `var` block of `listAll`. -/
inductive Chan where
  | apps | apps2
  | devices | devices2
  | groups | groups2 | groups3
  | keyVaults | keyVaults2 | keyVaults3 | keyVaults4 | keyVaults5
  | mgmtGroups | mgmtGroups2 | mgmtGroups3 | mgmtGroups4
  | resourceGroups | resourceGroups2 | resourceGroups3
  | roles | roles2
  | servicePrincipals | servicePrincipals2
  | subscriptions | subscriptions2 | subscriptions3 | subscriptions4
  | subscriptions5 | subscriptions6
  | tenants
  | virtualMachines | virtualMachines2
  | vmRoleAssignments1 | vmRoleAssignments2 | vmRoleAssignments3
  | vmRoleAssignments4 | vmRoleAssignments5 | vmRoleAssignments6
  deriving DecidableEq, Repr, Fintype

/-- The collectors called in `listAll`. -/
inductive Collector where
  | listApps | listAppOwners
  | listDevices | listDeviceOwners
  | listGroups | listGroupOwners | listGroupMembers
  | listSubscriptions | listSubscriptionOwners | listSubscriptionUserAccessAdmins
  | listKeyVaults | listKeyVaultOwners | listKeyVaultAccessPolicies
  | listKeyVaultUserAccessAdmins | listKeyVaultContributors
  | listManagementGroups | listManagementGroupOwners | listManagementGroupDescendants
  | listManagementGroupUserAccessAdmins
  | listResourceGroups | listResourceGroupOwners | listResourceGroupUserAccessAdmins
  | listServicePrincipals | listServicePrincipalOwners
  | listTenants
  | listUsers
  | listRoles | listRoleAssignments
  | listVirtualMachines | listVirtualMachineRoleAssignments
  | listVirtualMachineOwners | listVirtualMachineAvereContributors
  | listVirtualMachineContributors | listVirtualMachineAdminLogins
  | listVirtualMachineUserAccessAdmins | listVirtualMachineVMContributors
  deriving DecidableEq, Repr, Fintype

/-- A call `c(ctx, client)` of a leaf collector or `c(ctx, client, upstream)` of
a dependent one. -/
structure Call where
  collector : Collector
  upstream : Option Chan
  deriving DecidableEq, Repr

/-- A statement `pipeline.Tee(ctx.Done(), input, outs...)`. -/
structure TeeCall where
  input : Call
  outs : List Chan
  deriving DecidableEq, Repr

/-- An argument of the final `pipeline.Mux`: the variable bound to the result of
a collector call, or one of the channels of the `var` block. -/
inductive MuxArg where
  | result (c : Collector)
  | chan (c : Chan)
  deriving DecidableEq, Repr

/-- The statements of `listAll`: its `Tee` statements, the collector calls bound
to a variable, and the arguments of the final `Mux`, each in source order. -/
structure Wiring where
  tees : List TeeCall
  bound : List Call
  mux : List MuxArg
  deriving Repr

/-- The body of `listAll`. -/
def listAll : Wiring :=
  { tees :=
      [ ⟨⟨.listApps, none⟩, [.apps, .apps2]⟩,
        ⟨⟨.listDevices, none⟩, [.devices, .devices2]⟩,
        ⟨⟨.listGroups, none⟩, [.groups, .groups2, .groups3]⟩,
        ⟨⟨.listSubscriptions, none⟩,
          [.subscriptions, .subscriptions2, .subscriptions3, .subscriptions4, .subscriptions5,
            .subscriptions6]⟩,
        ⟨⟨.listKeyVaults, some .subscriptions2⟩,
          [.keyVaults, .keyVaults2, .keyVaults3, .keyVaults4, .keyVaults5]⟩,
        ⟨⟨.listManagementGroups, none⟩, [.mgmtGroups, .mgmtGroups2, .mgmtGroups3, .mgmtGroups4]⟩,
        ⟨⟨.listResourceGroups, some .subscriptions3⟩,
          [.resourceGroups, .resourceGroups2, .resourceGroups3]⟩,
        ⟨⟨.listServicePrincipals, none⟩, [.servicePrincipals, .servicePrincipals2]⟩,
        ⟨⟨.listTenants, none⟩, [.tenants]⟩,
        ⟨⟨.listRoles, none⟩, [.roles, .roles2]⟩,
        ⟨⟨.listVirtualMachines, some .subscriptions4⟩, [.virtualMachines, .virtualMachines2]⟩,
        ⟨⟨.listVirtualMachineRoleAssignments, some .virtualMachines2⟩,
          [.vmRoleAssignments1, .vmRoleAssignments2, .vmRoleAssignments3, .vmRoleAssignments4,
            .vmRoleAssignments5, .vmRoleAssignments6]⟩ ]
    bound :=
      [ ⟨.listAppOwners, some .apps2⟩,
        ⟨.listDeviceOwners, some .devices2⟩,
        ⟨.listGroupOwners, some .groups2⟩,
        ⟨.listGroupMembers, some .groups3⟩,
        ⟨.listSubscriptionOwners, some .subscriptions5⟩,
        ⟨.listSubscriptionUserAccessAdmins, some .subscriptions6⟩,
        ⟨.listKeyVaultOwners, some .keyVaults2⟩,
        ⟨.listKeyVaultAccessPolicies, some .keyVaults3⟩,
        ⟨.listKeyVaultUserAccessAdmins, some .keyVaults4⟩,
        ⟨.listKeyVaultContributors, some .keyVaults5⟩,
        ⟨.listManagementGroupOwners, some .mgmtGroups2⟩,
        ⟨.listManagementGroupDescendants, some .mgmtGroups3⟩,
        ⟨.listManagementGroupUserAccessAdmins, some .mgmtGroups4⟩,
        ⟨.listResourceGroupOwners, some .resourceGroups2⟩,
        ⟨.listResourceGroupUserAccessAdmins, some .resourceGroups3⟩,
        ⟨.listServicePrincipalOwners, some .servicePrincipals2⟩,
        ⟨.listUsers, none⟩,
        ⟨.listRoleAssignments, some .roles2⟩,
        ⟨.listVirtualMachineOwners, some .vmRoleAssignments1⟩,
        ⟨.listVirtualMachineAvereContributors, some .vmRoleAssignments2⟩,
        ⟨.listVirtualMachineContributors, some .vmRoleAssignments3⟩,
        ⟨.listVirtualMachineAdminLogins, some .vmRoleAssignments4⟩,
        ⟨.listVirtualMachineUserAccessAdmins, some .vmRoleAssignments5⟩,
        ⟨.listVirtualMachineVMContributors, some .vmRoleAssignments6⟩ ]
    mux :=
      [ MuxArg.result .listAppOwners,
        MuxArg.chan .apps,
        MuxArg.result .listDeviceOwners,
        MuxArg.chan .devices,
        MuxArg.result .listGroupMembers,
        MuxArg.result .listGroupOwners,
        MuxArg.chan .groups,
        MuxArg.result .listKeyVaultAccessPolicies,
        MuxArg.result .listKeyVaultContributors,
        MuxArg.result .listKeyVaultOwners,
        MuxArg.result .listKeyVaultUserAccessAdmins,
        MuxArg.chan .keyVaults,
        MuxArg.result .listManagementGroupDescendants,
        MuxArg.result .listManagementGroupOwners,
        MuxArg.result .listManagementGroupUserAccessAdmins,
        MuxArg.chan .mgmtGroups,
        MuxArg.result .listResourceGroupOwners,
        MuxArg.result .listResourceGroupUserAccessAdmins,
        MuxArg.chan .resourceGroups,
        MuxArg.result .listRoleAssignments,
        MuxArg.chan .roles,
        MuxArg.result .listServicePrincipalOwners,
        MuxArg.chan .servicePrincipals,
        MuxArg.result .listSubscriptionOwners,
        MuxArg.result .listSubscriptionUserAccessAdmins,
        MuxArg.chan .subscriptions,
        MuxArg.chan .tenants,
        MuxArg.result .listUsers,
        MuxArg.result .listVirtualMachineAdminLogins,
        MuxArg.result .listVirtualMachineAvereContributors,
        MuxArg.result .listVirtualMachineContributors,
        MuxArg.result .listVirtualMachineOwners,
        MuxArg.result .listVirtualMachineUserAccessAdmins,
        MuxArg.result .listVirtualMachineVMContributors,
        MuxArg.chan .virtualMachines ] }

namespace Wiring

/-- Every collector call of the wiring: the inputs of the tees and the calls
bound to a variable. -/
def calls (w : Wiring) : List Call :=
  w.tees.map TeeCall.input ++ w.bound

/-- The number of `Tee` output positions a channel fills. -/
def writers (w : Wiring) (ch : Chan) : Nat :=
  (w.tees.flatMap TeeCall.outs).count ch

/-- The number of places a channel is read: as the upstream argument of a
collector call, or as an argument of the final `Mux`. -/
def readers (w : Wiring) (ch : Chan) : Nat :=
  (w.calls.map Call.upstream).count (some ch) + w.mux.count (MuxArg.chan ch)

/-- The tee copies of the output of a collector: the outputs of the tees whose
input is a call of it. -/
def copies (w : Wiring) (c : Collector) : List Chan :=
  (w.tees.filter fun t => t.input.collector = c).flatMap TeeCall.outs

/-- The number of arguments of the final `Mux` that carry the output of a
collector: the variable bound to its result, or a tee copy of its output. -/
def merged (w : Wiring) (c : Collector) : Nat :=
  w.mux.count (MuxArg.result c) + ((w.copies c).map fun ch => w.mux.count (MuxArg.chan ch)).sum

end Wiring

/-- The values of `enums.KeyVaultAccessType`.  The package is not among the
sources: `GetCerts` and `GetKeys` are the two constants `listAll` names, and
`other` stands for any further value of the type. -/
inductive KeyVaultAccessType where
  | GetCerts
  | GetKeys
  | other (name : String)
  deriving DecidableEq, Repr

/-- The filter `[]enums.KeyVaultAccessType{...}` that `listAll` passes to
`listKeyVaultAccessPolicies`, in source order. -/
def listAllKeyVaultAccessTypes : List KeyVaultAccessType :=
  [KeyVaultAccessType.GetCerts, KeyVaultAccessType.GetKeys, KeyVaultAccessType.GetCerts]

/-! ## Lemmas on `listApps` -/

theorem listAppsLoop_sends (client : AzureClient) (items : List azure.ApplicationResult) :
    (listAppsLoop client items).sends =
      (items.takeWhile fun item => decide (item.Error = none)).map (appRecord client) := by
  induction items with
  | nil => rfl
  | cons item rest ih =>
    by_cases h : item.Error = none
    · simp [listAppsLoop, Proc.sends, h, ih]
    · simp [listAppsLoop, Proc.sends, h]

theorem listAppsLoop_returns (client : AzureClient) (items : List azure.ApplicationResult) :
    (listAppsLoop client items).returns = true := by
  induction items with
  | nil => rfl
  | cons item rest ih =>
    by_cases h : item.Error = none
    · simp [listAppsLoop, Proc.returns, h, ih]
    · simp [listAppsLoop, Proc.returns, h]

theorem takeWhile_ok_append {α : Type} (p : α → Bool) (oks : List α) (bad : α) (rest : List α)
    (hok : ∀ a ∈ oks, p a = true) (hbad : p bad = false) :
    (oks ++ bad :: rest).takeWhile p = oks := by
  induction oks with
  | nil => simp [List.takeWhile, hbad]
  | cons a l ih =>
    have ha : p a = true := hok a (List.mem_cons_self a l)
    have hl : ∀ b ∈ l, p b = true := fun b hb => hok b (List.mem_cons_of_mem a hb)
    simp [List.takeWhile, ha, ih hl]

/-- C1. The records of `listApps` are, in order, the `AZApp` records of the ok
items that precede the first error item of `client.ListAzureADApps` (of all items
when none is an error), each carrying the item and the tenant id and name of
`TenantInfo()`, and the output is closed; so when the stream is `oks` followed by
an error item and anything else, the records are exactly those of `oks`, ten of
them when `oks` has ten items. -/
theorem listApps_emits_until_first_error (client : AzureClient) :
    (listApps client).records =
        (client.ListAzureADApps.takeWhile fun item => decide (item.Error = none)).map
          (fun item =>
            { Kind := Kind.KindAZApp
              Data := Payload.app
                { Application := item.Ok
                  TenantId := client.TenantInfo.TenantId
                  TenantName := client.TenantInfo.DisplayName } })
      ∧ (listApps client).closed = true
      ∧ ∀ (oks : List azure.Application) (e : String) (x : azure.Application)
          (rest : List azure.ApplicationResult),
          (listApps { client with
              ListAzureADApps :=
                oks.map (fun a => { Error := none, Ok := a }) ++
                  { Error := some e, Ok := x } :: rest }).records =
              oks.map (fun a =>
                { Kind := Kind.KindAZApp
                  Data := Payload.app
                    { Application := a
                      TenantId := client.TenantInfo.TenantId
                      TenantName := client.TenantInfo.DisplayName } })
            ∧ (oks.length = 10 →
              (listApps { client with
                ListAzureADApps :=
                  oks.map (fun a => { Error := none, Ok := a }) ++
                    { Error := some e, Ok := x } :: rest }).records.length = 10) := by
  refine ⟨listAppsLoop_sends client _, listAppsLoop_returns client _, ?_⟩
  intro oks e x rest
  have key : (listApps { client with
              ListAzureADApps :=
                oks.map (fun a => { Error := none, Ok := a }) ++
                  { Error := some e, Ok := x } :: rest }).records =
              oks.map (fun a =>
                { Kind := Kind.KindAZApp
                  Data := Payload.app
                    { Application := a
                      TenantId := client.TenantInfo.TenantId
                      TenantName := client.TenantInfo.DisplayName } }) := by
    simp only [listApps, listAppsProc]
    rw [listAppsLoop_sends, takeWhile_ok_append]
    · simp [List.map_map, Function.comp_def, appRecord]
    · intro a ha
      obtain ⟨b, _, rfl⟩ := List.mem_map.1 ha
      simp
    · simp
  refine ⟨key, fun h => ?_⟩
  rw [key, List.length_map, h]

/-! ## Lemmas on the pipeline helpers -/

theorem flatten_set_perm {α : Type} (pending : List (List α)) (w : Nat) (x : α) (xs : List α)
    (h : pending.get? w = some (x :: xs)) :
    (x :: (pending.set w xs).flatten).Perm pending.flatten := by
  induction pending generalizing w with
  | nil => simp at h
  | cons l ls ih =>
    cases w with
    | zero =>
      simp only [List.get?_cons_zero, Option.some.injEq] at h
      subst h
      simp
    | succ w =>
      simp only [List.get?_cons_succ] at h
      have := ih w h
      simp only [List.set_cons_succ, List.flatten_cons]
      exact (List.perm_middle.symm).trans (List.Perm.append_left l this)

theorem interleave_perm {α : Type} (sched : List Nat) (pending : List (List α)) :
    (interleave sched pending).Perm pending.flatten := by
  induction sched generalizing pending with
  | nil => exact List.Perm.refl _
  | cons w sched ih =>
    unfold interleave
    split
    · next x xs h =>
      exact ((ih _).cons x).trans (flatten_set_perm pending w x xs h)
    · exact ih pending

theorem flatten_map_insert {α : Type} (ws : List Nat) (k : Nat) (a : α) (F : Nat → List α) :
    (k ∉ ws → ws.map (fun w => if k = w then a :: F w else F w) = ws.map F)
    ∧ (k ∈ ws → ws.Nodup →
        (ws.map (fun w => if k = w then a :: F w else F w)).flatten.Perm
          (a :: (ws.map F).flatten)) := by
  induction ws with
  | nil => simp
  | cons w ws ih =>
    constructor
    · intro hk
      have h1 : k ≠ w := fun h => hk (h ▸ List.mem_cons_self _ _)
      have h2 : k ∉ ws := fun h => hk (List.mem_cons_of_mem _ h)
      simp [h1, ih.1 h2]
    · intro hk hnd
      have hw : w ∉ ws := (List.nodup_cons.1 hnd).1
      have hnd2 : ws.Nodup := (List.nodup_cons.1 hnd).2
      by_cases h1 : k = w
      · subst h1
        simp only [List.map_cons, if_true, List.flatten_cons, ih.1 hw]
        exact List.Perm.refl _
      · have h2 : k ∈ ws := by
          rcases List.mem_cons.1 hk with h | h
          · exact absurd h h1
          · exact h
        simp only [List.map_cons, if_neg h1, List.flatten_cons]
        exact (List.Perm.append_left (F w) (ih.2 h2 hnd2)).trans List.perm_middle

theorem flatten_filter_perm {α : Type} (g : α → Nat) (n : Nat) (l : List α)
    (hg : ∀ a ∈ l, g a < n) :
    ((List.range n).map fun w => l.filter fun a => decide (g a = w)).flatten.Perm l := by
  induction l with
  | nil =>
    simp only [List.filter_nil]
    have : ∀ m : Nat, ((List.range m).map fun _ => ([] : List α)).flatten = [] := by
      intro m
      simp
    rw [this]
  | cons a l ih =>
    have hl : ∀ b ∈ l, g b < n := fun b hb => hg b (List.mem_cons_of_mem _ hb)
    have ha : g a ∈ List.range n := List.mem_range.2 (hg a (List.mem_cons_self _ _))
    have hfun : (fun w => (a :: l).filter fun b => decide (g b = w)) =
        fun w => if g a = w then a :: (l.filter fun b => decide (g b = w))
          else l.filter fun b => decide (g b = w) := by
      funext w
      by_cases h : g a = w <;> simp [List.filter_cons, h]
    rw [hfun]
    exact ((flatten_map_insert (List.range n) (g a) a _).2 ha (List.nodup_range n)).trans
      ((ih hl).cons a)

theorem Demux_flatten_perm {α : Type} (choice : Nat → Nat) (n : Nat) (hn : 0 < n)
    (input : List α) : (Demux choice n input).flatten.Perm input := by
  have h := flatten_filter_perm (fun p : Nat × α => choice p.1 % n) n input.enum
    (fun p _ => Nat.mod_lt _ hn)
  have h2 := h.map Prod.snd
  rw [List.enum_map_snd] at h2
  refine List.Perm.trans (List.Perm.of_eq ?_) h2
  simp only [Demux, List.map_flatten, List.map_map, Function.comp_def]

theorem flatten_map_flatMap {α β : Type} (f : α → List β) (ls : List (List α)) :
    (ls.map fun l => l.flatMap f).flatten = ls.flatten.flatMap f := by
  induction ls with
  | nil => rfl
  | cons l ls ih => simp [ih, List.flatMap_append]

/-- The records of a dependent collector are, up to order, what its workers emit
for the ids its reader hands over. -/
theorem collect_records_perm (sched : Schedule) (reader : Proc String)
    (worker : List String → Proc AzureWrapper) (f : String → List AzureWrapper)
    (hw : ∀ ids, (worker ids).sends = ids.flatMap f) :
    (collect sched reader worker).records.Perm (reader.sends.flatMap f) := by
  simp only [collect, List.map_map]
  refine (interleave_perm _ _).trans ?_
  have : (fun s => (worker s).sends) = fun s => s.flatMap f := funext hw
  simp only [Function.comp_def, this, flatten_map_flatMap]
  exact (Demux_flatten_perm sched.demux 25 (by decide) reader.sends).flatMap_right f

theorem collect_closed (sched : Schedule) (reader : Proc String)
    (worker : List String → Proc AzureWrapper) (hr : reader.returns = true)
    (hw : ∀ ids, (worker ids).returns = true) :
    (collect sched reader worker).closed = true := by
  simp [collect, hr, hw]

/-! ## Lemmas on the reader and worker goroutines -/

theorem readerLoop_map_append {β : Type} (unwrap : Dyn → Unwrapped) (msg : String)
    (mk : β → Dyn) (key : β → String) (h : ∀ b, unwrap (mk b) = Unwrapped.id (key b))
    (pre : List β) (rest : List Dyn) :
    (readerLoop unwrap msg (pre.map mk ++ rest)).sends =
        pre.map key ++ (readerLoop unwrap msg rest).sends
      ∧ (readerLoop unwrap msg (pre.map mk ++ rest)).returns =
        (readerLoop unwrap msg rest).returns
      ∧ (readerLoop unwrap msg (pre.map mk ++ rest)).recvs =
        pre.length + (readerLoop unwrap msg rest).recvs
      ∧ (readerLoop unwrap msg (pre.map mk ++ rest)).logs =
        (readerLoop unwrap msg rest).logs := by
  induction pre with
  | nil => simp
  | cons b pre ih =>
    obtain ⟨h1, h2, h3, h4⟩ := ih
    have e : readerLoop unwrap msg ((b :: pre).map mk ++ rest) =
        Proc.recv (Proc.send (key b) (readerLoop unwrap msg (pre.map mk ++ rest)))
          Proc.done := by
      show readerLoop unwrap msg (mk b :: (pre.map mk ++ rest)) = _
      simp only [readerLoop, h b]
    rw [e]
    simp only [Proc.sends, Proc.returns, Proc.recvs, Proc.logs, h1, h2, h3, h4,
      List.map_cons, List.cons_append, List.length_cons, true_and, and_true]
    omega

theorem readerLoop_map {β : Type} (unwrap : Dyn → Unwrapped) (msg : String)
    (mk : β → Dyn) (key : β → String) (h : ∀ b, unwrap (mk b) = Unwrapped.id (key b))
    (pre : List β) :
    (readerLoop unwrap msg (pre.map mk)).sends = pre.map key
      ∧ (readerLoop unwrap msg (pre.map mk)).returns = true := by
  have := readerLoop_map_append unwrap msg mk key h pre []
  rw [List.append_nil] at this
  simpa [readerLoop, Proc.sends, Proc.returns] using And.intro this.1 this.2.1

theorem resourceGroupsItems_sends (k : Proc AzureWrapper)
    (items : List azure.ResourceGroupResult) :
    (resourceGroupsItems k items).sends =
        ((items.filter fun item => decide (item.Error = none)).map resourceGroupRecord) ++
          k.sends
      ∧ (resourceGroupsItems k items).returns = k.returns := by
  induction items with
  | nil => exact ⟨rfl, rfl⟩
  | cons item more ih =>
    by_cases h : item.Error = none
    · simp [resourceGroupsItems, Proc.sends, Proc.returns, h, ih]
    · simp [resourceGroupsItems, Proc.sends, Proc.returns, h, ih]

theorem resourceGroupsWorker_sends (client : AzureClient) (ids : List String) :
    (resourceGroupsWorker client ids).sends =
      ids.flatMap fun id =>
        ((client.ListAzureResourceGroups id).filter fun item =>
          decide (item.Error = none)).map resourceGroupRecord := by
  induction ids with
  | nil => rfl
  | cons id ids ih =>
    simp [resourceGroupsWorker, Proc.sends, resourceGroupsItems_sends, ih]

theorem resourceGroupsWorker_returns (client : AzureClient) (ids : List String) :
    (resourceGroupsWorker client ids).returns = true := by
  induction ids with
  | nil => rfl
  | cons id ids ih =>
    simp [resourceGroupsWorker, Proc.returns, resourceGroupsItems_sends, ih]

theorem servicePrincipalOwnersItems_eq (k : models.ServicePrincipalOwners → Proc AzureWrapper)
    (acc : models.ServicePrincipalOwners) (items : List azure.ServicePrincipalOwnerResult) :
    (servicePrincipalOwnersItems k acc items).sends =
        (k { acc with
          Owners := acc.Owners ++
            (items.filter fun item => decide (item.Error = none)).map
              servicePrincipalOwner }).sends
      ∧ (servicePrincipalOwnersItems k acc items).returns =
        (k { acc with
          Owners := acc.Owners ++
            (items.filter fun item => decide (item.Error = none)).map
              servicePrincipalOwner }).returns := by
  induction items generalizing acc with
  | nil => simp [servicePrincipalOwnersItems]
  | cons item more ih =>
    by_cases h : item.Error = none
    · simp [servicePrincipalOwnersItems, Proc.sends, Proc.returns, h, ih]
    · simp [servicePrincipalOwnersItems, Proc.sends, Proc.returns, h, ih]

/-- The aggregate a worker of `listServicePrincipalOwners` sends for one id. -/
theorem servicePrincipalOwnersWorker_sends (client : AzureClient) (ids : List String) :
    (servicePrincipalOwnersWorker client ids).sends =
      ids.flatMap fun id =>
        [servicePrincipalOwnersRecord
          { Owners :=
              ((client.ListAzureADServicePrincipalOwners id).filter fun item =>
                decide (item.Error = none)).map servicePrincipalOwner
            ServicePrincipalId := id }] := by
  induction ids with
  | nil => rfl
  | cons id ids ih =>
    simp [servicePrincipalOwnersWorker, Proc.sends, servicePrincipalOwnersItems_eq, ih]

theorem servicePrincipalOwnersWorker_returns (client : AzureClient) (ids : List String) :
    (servicePrincipalOwnersWorker client ids).returns = true := by
  induction ids with
  | nil => rfl
  | cons id ids ih =>
    simp [servicePrincipalOwnersWorker, Proc.returns, servicePrincipalOwnersItems_eq, ih]

theorem subscriptionUserAccessAdminsItems_eq (roleID : String)
    (k : models.SubscriptionUserAccessAdmins → Proc AzureWrapper)
    (acc : models.SubscriptionUserAccessAdmins) (items : List azure.RoleAssignmentResult) :
    (subscriptionUserAccessAdminsItems roleID k acc items).sends =
        (k { acc with
          UserAccessAdmins := acc.UserAccessAdmins ++
            (keptAssignments roleID items).map fun item =>
              { UserAccessAdmin := item.Ok, SubscriptionId := item.ParentId } }).sends
      ∧ (subscriptionUserAccessAdminsItems roleID k acc items).returns =
        (k { acc with
          UserAccessAdmins := acc.UserAccessAdmins ++
            (keptAssignments roleID items).map fun item =>
              { UserAccessAdmin := item.Ok, SubscriptionId := item.ParentId } }).returns := by
  induction items generalizing acc with
  | nil => simp [subscriptionUserAccessAdminsItems, keptAssignments]
  | cons item more ih =>
    by_cases h : item.Error = none
    · by_cases h2 : item.Ok.Properties.RoleDefinitionId = roleID
      · simp [subscriptionUserAccessAdminsItems, keptAssignments, Proc.sends, Proc.returns, h,
          h2, ih]
      · simp [subscriptionUserAccessAdminsItems, keptAssignments, Proc.sends, Proc.returns, h,
          h2, ih]
    · simp [subscriptionUserAccessAdminsItems, keptAssignments, Proc.sends, Proc.returns, h, ih]

theorem subscriptionUserAccessAdminsWorker_sends (roleID : String) (client : AzureClient)
    (ids : List String) :
    (subscriptionUserAccessAdminsWorker roleID client ids).sends =
      ids.flatMap fun id =>
        [subscriptionUserAccessAdminsRecord
          { UserAccessAdmins :=
              (keptAssignments roleID (client.ListRoleAssignmentsForResource id)).map fun item =>
                { UserAccessAdmin := item.Ok, SubscriptionId := item.ParentId }
            SubscriptionId := id }] := by
  induction ids with
  | nil => rfl
  | cons id ids ih =>
    simp [subscriptionUserAccessAdminsWorker, Proc.sends, subscriptionUserAccessAdminsItems_eq,
      ih]

theorem subscriptionUserAccessAdminsWorker_returns (roleID : String) (client : AzureClient)
    (ids : List String) :
    (subscriptionUserAccessAdminsWorker roleID client ids).returns = true := by
  induction ids with
  | nil => rfl
  | cons id ids ih =>
    simp [subscriptionUserAccessAdminsWorker, Proc.returns,
      subscriptionUserAccessAdminsItems_eq, ih]

theorem unwrapSubscription_wrapper (k : Kind) (s : models.Subscription) :
    unwrapSubscription (Dyn.wrapper ⟨k, Payload.subscription s⟩) =
      Unwrapped.id s.SubscriptionId := rfl

theorem unwrapServicePrincipal_wrapper (k : Kind) (p : models.ServicePrincipal) :
    unwrapServicePrincipal (Dyn.wrapper ⟨k, Payload.servicePrincipal p⟩) =
      Unwrapped.id p.Id := rfl

theorem unwrapSubscriptionResource_wrapper (k : Kind) (s : models.Subscription) :
    unwrapSubscriptionResource (Dyn.wrapper ⟨k, Payload.subscription s⟩) =
      Unwrapped.id s.Id := rfl

theorem flatMap_singleton_map {α β : Type} (f : α → β) (l : List α) :
    (l.flatMap fun a => [f a]) = l.map f := by
  induction l with
  | nil => rfl
  | cons a l ih => simp [List.flatMap_cons, ih]

/-! ## The dependent collectors on well-typed upstreams -/

/-- C2. On an upstream of envelopes that all hold a `models.ServicePrincipal`,
the records of `listServicePrincipalOwners` are, as a multiset (a permutation of
the list), one `AZServicePrincipalOwner` aggregate per upstream item, repeated ids
counted: the aggregate of `p` has `ServicePrincipalId = p` and its `Owners` are
the ok items of `client.ListAzureADServicePrincipalOwners(p)` in the order of the
client, error items skipped, so a parent without owners yields an aggregate with
no owner; there are as many records as upstream items and the output is closed. -/
theorem listServicePrincipalOwners_one_aggregate_per_parent (sched : Schedule)
    (client : AzureClient) (upstream : List (Kind × models.ServicePrincipal)) :
    (listServicePrincipalOwners sched client
        (upstream.map fun e => Dyn.wrapper ⟨e.1, Payload.servicePrincipal e.2⟩)).records.Perm
      (upstream.map fun e =>
        { Kind := Kind.KindAZServicePrincipalOwner
          Data := Payload.servicePrincipalOwners
            { ServicePrincipalId := e.2.Id
              Owners :=
                ((client.ListAzureADServicePrincipalOwners e.2.Id).filter fun item =>
                  decide (item.Error = none)).map fun item =>
                    { Owner := item.Ok, ServicePrincipalId := item.ServicePrincipalId } } })
      ∧ (listServicePrincipalOwners sched client
          (upstream.map fun e =>
            Dyn.wrapper ⟨e.1, Payload.servicePrincipal e.2⟩)).records.length = upstream.length
      ∧ (listServicePrincipalOwners sched client
          (upstream.map fun e =>
            Dyn.wrapper ⟨e.1, Payload.servicePrincipal e.2⟩)).closed = true := by
  have hr := readerLoop_map unwrapServicePrincipal
    "unable to continue enumerating service principal owners"
    (fun e : Kind × models.ServicePrincipal => Dyn.wrapper ⟨e.1, Payload.servicePrincipal e.2⟩)
    (fun e => e.2.Id) (fun e => unwrapServicePrincipal_wrapper e.1 e.2) upstream
  have hp := collect_records_perm sched
    (servicePrincipalOwnersReader
      (upstream.map fun e => Dyn.wrapper ⟨e.1, Payload.servicePrincipal e.2⟩))
    (servicePrincipalOwnersWorker client) _ (servicePrincipalOwnersWorker_sends client)
  simp only [servicePrincipalOwnersReader, OrDone, hr.1] at hp
  have hperm : (listServicePrincipalOwners sched client
        (upstream.map fun e => Dyn.wrapper ⟨e.1, Payload.servicePrincipal e.2⟩)).records.Perm
      (upstream.map fun e =>
        { Kind := Kind.KindAZServicePrincipalOwner
          Data := Payload.servicePrincipalOwners
            { ServicePrincipalId := e.2.Id
              Owners :=
                ((client.ListAzureADServicePrincipalOwners e.2.Id).filter fun item =>
                  decide (item.Error = none)).map fun item =>
                    { Owner := item.Ok, ServicePrincipalId := item.ServicePrincipalId } } }) := by
    refine hp.trans (List.Perm.of_eq ?_)
    rw [List.flatMap_map]
    exact flatMap_singleton_map _ upstream
  refine ⟨hperm, ?_, ?_⟩
  · rw [hperm.length_eq, List.length_map]
  · exact collect_closed sched _ _ hr.2 (servicePrincipalOwnersWorker_returns client)


/-- The scenario of C2: three owners for SP1 and none for SP2 give, under every
schedule, one aggregate with three entries and one with none. -/
theorem listServicePrincipalOwners_scenario (sched : Schedule) (client : AzureClient) :
    (listServicePrincipalOwners sched
        { client with
          ListAzureADServicePrincipalOwners := fun id =>
            if id = "SP1" then
              [⟨"SP1", none, "o1"⟩, ⟨"SP1", none, "o2"⟩, ⟨"SP1", none, "o3"⟩]
            else [] }
        [Dyn.wrapper ⟨Kind.KindAZServicePrincipal, Payload.servicePrincipal ⟨"SP1"⟩⟩,
          Dyn.wrapper ⟨Kind.KindAZServicePrincipal, Payload.servicePrincipal ⟨"SP2"⟩⟩]).records.Perm
      [ { Kind := Kind.KindAZServicePrincipalOwner
          Data := Payload.servicePrincipalOwners
            { ServicePrincipalId := "SP1"
              Owners := [⟨"o1", "SP1"⟩, ⟨"o2", "SP1"⟩, ⟨"o3", "SP1"⟩] } },
        { Kind := Kind.KindAZServicePrincipalOwner
          Data := Payload.servicePrincipalOwners
            { ServicePrincipalId := "SP2", Owners := [] } } ] := by
  have h := (listServicePrincipalOwners_one_aggregate_per_parent sched
    { client with
      ListAzureADServicePrincipalOwners := fun id =>
        if id = "SP1" then
          [⟨"SP1", none, "o1"⟩, ⟨"SP1", none, "o2"⟩, ⟨"SP1", none, "o3"⟩]
        else [] }
    [(Kind.KindAZServicePrincipal, ⟨"SP1"⟩), (Kind.KindAZServicePrincipal, ⟨"SP2"⟩)]).1
  simpa using h

/-- C4. On an upstream of envelopes that all hold a `models.Subscription`, the
records of `listResourceGroups` are, as a multiset (a permutation of the list),
the union over the upstream subscriptions of one `AZResourceGroup` record per ok
item of `client.ListAzureResourceGroups(subscriptionId)`: error items give no
record and stop nothing, so the ok items after an error item and the later
subscriptions are all there; the output is closed. -/
theorem listResourceGroups_one_record_per_ok_item (sched : Schedule) (client : AzureClient)
    (upstream : List (Kind × models.Subscription)) :
    (listResourceGroups sched client
        (upstream.map fun e => Dyn.wrapper ⟨e.1, Payload.subscription e.2⟩)).records.Perm
      (upstream.flatMap fun e =>
        ((client.ListAzureResourceGroups e.2.SubscriptionId).filter fun item =>
          decide (item.Error = none)).map fun item =>
            { Kind := Kind.KindAZResourceGroup
              Data := Payload.resourceGroup
                { ResourceGroup := item.Ok, SubscriptionId := item.SubscriptionId } })
      ∧ (listResourceGroups sched client
          (upstream.map fun e => Dyn.wrapper ⟨e.1, Payload.subscription e.2⟩)).closed = true := by
  have hr := readerLoop_map unwrapSubscription
    "unable to continue enumerating resource groups"
    (fun e : Kind × models.Subscription => Dyn.wrapper ⟨e.1, Payload.subscription e.2⟩)
    (fun e => e.2.SubscriptionId) (fun e => unwrapSubscription_wrapper e.1 e.2) upstream
  have hp := collect_records_perm sched
    (resourceGroupsReader (upstream.map fun e => Dyn.wrapper ⟨e.1, Payload.subscription e.2⟩))
    (resourceGroupsWorker client) _ (resourceGroupsWorker_sends client)
  simp only [resourceGroupsReader, OrDone, hr.1] at hp
  refine ⟨hp.trans (List.Perm.of_eq ?_), ?_⟩
  · rw [List.flatMap_map]
    rfl
  · exact collect_closed sched _ _ hr.2 (resourceGroupsWorker_returns client)

/-- The error handling of C4 on one subscription whose stream is an ok item, an
error item and another ok item: both ok items are emitted, and so is the item of
the next subscription. -/
theorem listResourceGroups_scenario (sched : Schedule) (client : AzureClient) :
    (listResourceGroups sched
        { client with
          ListAzureResourceGroups := fun id =>
            if id = "S1" then
              [⟨"S1", none, ⟨"g1"⟩⟩, ⟨"S1", some "throttled", ⟨""⟩⟩, ⟨"S1", none, ⟨"g2"⟩⟩]
            else [⟨"S2", none, ⟨"g3"⟩⟩] }
        [Dyn.wrapper ⟨Kind.KindAZSubscription, Payload.subscription ⟨"/subscriptions/S1", "S1"⟩⟩,
          Dyn.wrapper
            ⟨Kind.KindAZSubscription, Payload.subscription ⟨"/subscriptions/S2", "S2"⟩⟩]).records.Perm
      [ ⟨Kind.KindAZResourceGroup, Payload.resourceGroup ⟨⟨"g1"⟩, "S1"⟩⟩,
        ⟨Kind.KindAZResourceGroup, Payload.resourceGroup ⟨⟨"g2"⟩, "S1"⟩⟩,
        ⟨Kind.KindAZResourceGroup, Payload.resourceGroup ⟨⟨"g3"⟩, "S2"⟩⟩ ] := by
  have h := (listResourceGroups_one_record_per_ok_item sched
    { client with
      ListAzureResourceGroups := fun id =>
        if id = "S1" then
          [⟨"S1", none, ⟨"g1"⟩⟩, ⟨"S1", some "throttled", ⟨""⟩⟩, ⟨"S1", none, ⟨"g2"⟩⟩]
        else [⟨"S2", none, ⟨"g3"⟩⟩] }
    [(Kind.KindAZSubscription, ⟨"/subscriptions/S1", "S1"⟩),
      (Kind.KindAZSubscription, ⟨"/subscriptions/S2", "S2"⟩)]).1
  simpa using h

/-- C3. On an upstream of subscription envelopes, the records of
`listSubscriptionUserAccessAdmins` are, as a multiset, one
`AZSubscriptionUserAccessAdmin` envelope per subscription, whose payload is a
`models.SubscriptionUserAccessAdmins` aggregate with exactly one entry per ok role
assignment of `client.ListRoleAssignmentsForResource` for that subscription whose
`Properties.RoleDefinitionId` is the role id; an error item adds no entry and the
aggregate is emitted all the same. -/
theorem listSubscriptionUserAccessAdmins_one_aggregate_per_subscription (roleID : String)
    (sched : Schedule) (client : AzureClient) (upstream : List (Kind × models.Subscription)) :
    (listSubscriptionUserAccessAdmins roleID sched client
        (upstream.map fun e => Dyn.wrapper ⟨e.1, Payload.subscription e.2⟩)).records.Perm
      (upstream.map fun e =>
        { Kind := Kind.KindAZSubscriptionUserAccessAdmin
          Data := Payload.subscriptionUserAccessAdmins
            { SubscriptionId := e.2.Id
              UserAccessAdmins :=
                ((client.ListRoleAssignmentsForResource e.2.Id).filter fun item =>
                  decide (item.Error = none) &&
                    decide (item.Ok.Properties.RoleDefinitionId = roleID)).map fun item =>
                    { UserAccessAdmin := item.Ok, SubscriptionId := item.ParentId } } })
      ∧ (listSubscriptionUserAccessAdmins roleID sched client
          (upstream.map fun e => Dyn.wrapper ⟨e.1, Payload.subscription e.2⟩)).closed = true := by
  have hr := readerLoop_map unwrapSubscriptionResource
    "unable to continue enumerating subscription user access admins"
    (fun e : Kind × models.Subscription => Dyn.wrapper ⟨e.1, Payload.subscription e.2⟩)
    (fun e => e.2.Id) (fun e => unwrapSubscriptionResource_wrapper e.1 e.2) upstream
  have hp := collect_records_perm sched
    (readerLoop unwrapSubscriptionResource
      "unable to continue enumerating subscription user access admins"
      (OrDone (upstream.map fun e => Dyn.wrapper ⟨e.1, Payload.subscription e.2⟩)))
    (subscriptionUserAccessAdminsWorker roleID client) _
    (subscriptionUserAccessAdminsWorker_sends roleID client)
  simp only [OrDone, hr.1] at hp
  refine ⟨hp.trans (List.Perm.of_eq ?_), ?_⟩
  · rw [List.flatMap_map]
    exact flatMap_singleton_map _ upstream
  · exact collect_closed sched _ _ hr.2 (subscriptionUserAccessAdminsWorker_returns roleID client)

/-- The scenario of C3 and of `TestListSubscriptionUserAccessAdmins`: two matching
assignments and one of another role for S1, one matching assignment and one
client error for S2, give aggregates with two entries and with one entry. -/
theorem listSubscriptionUserAccessAdmins_scenario (sched : Schedule) (client : AzureClient) :
    (listSubscriptionUserAccessAdmins "18d7d88d-d35e-4fb5-a5c3-7773c20a72d9" sched
        { client with
          ListRoleAssignmentsForResource := fun id =>
            if id = "/subscriptions/S1" then
              [⟨id, none, ⟨"a1", ⟨"18d7d88d-d35e-4fb5-a5c3-7773c20a72d9"⟩⟩⟩,
                ⟨id, none, ⟨"a2", ⟨"18d7d88d-d35e-4fb5-a5c3-7773c20a72d9"⟩⟩⟩,
                ⟨id, none, ⟨"a3", ⟨"8e3af657-a8ff-443c-a75c-2fe8c4bcb635"⟩⟩⟩]
            else
              [⟨id, none, ⟨"b1", ⟨"18d7d88d-d35e-4fb5-a5c3-7773c20a72d9"⟩⟩⟩,
                ⟨id, some "I am an error", ⟨"", ⟨""⟩⟩⟩] }
        [Dyn.wrapper ⟨Kind.KindAZSubscription, Payload.subscription ⟨"/subscriptions/S1", "S1"⟩⟩,
          Dyn.wrapper
            ⟨Kind.KindAZSubscription, Payload.subscription ⟨"/subscriptions/S2", "S2"⟩⟩]).records.Perm
      [ { Kind := Kind.KindAZSubscriptionUserAccessAdmin
          Data := Payload.subscriptionUserAccessAdmins
            { SubscriptionId := "/subscriptions/S1"
              UserAccessAdmins :=
                [ ⟨⟨"a1", ⟨"18d7d88d-d35e-4fb5-a5c3-7773c20a72d9"⟩⟩, "/subscriptions/S1"⟩,
                  ⟨⟨"a2", ⟨"18d7d88d-d35e-4fb5-a5c3-7773c20a72d9"⟩⟩, "/subscriptions/S1"⟩ ] } },
        { Kind := Kind.KindAZSubscriptionUserAccessAdmin
          Data := Payload.subscriptionUserAccessAdmins
            { SubscriptionId := "/subscriptions/S2"
              UserAccessAdmins :=
                [ ⟨⟨"b1", ⟨"18d7d88d-d35e-4fb5-a5c3-7773c20a72d9"⟩⟩,
                    "/subscriptions/S2"⟩ ] } } ] := by
  have h := (listSubscriptionUserAccessAdmins_one_aggregate_per_subscription
    "18d7d88d-d35e-4fb5-a5c3-7773c20a72d9" sched
    { client with
      ListRoleAssignmentsForResource := fun id =>
        if id = "/subscriptions/S1" then
          [⟨id, none, ⟨"a1", ⟨"18d7d88d-d35e-4fb5-a5c3-7773c20a72d9"⟩⟩⟩,
            ⟨id, none, ⟨"a2", ⟨"18d7d88d-d35e-4fb5-a5c3-7773c20a72d9"⟩⟩⟩,
            ⟨id, none, ⟨"a3", ⟨"8e3af657-a8ff-443c-a75c-2fe8c4bcb635"⟩⟩⟩]
        else
          [⟨id, none, ⟨"b1", ⟨"18d7d88d-d35e-4fb5-a5c3-7773c20a72d9"⟩⟩⟩,
            ⟨id, some "I am an error", ⟨"", ⟨""⟩⟩⟩] }
    [(Kind.KindAZSubscription, ⟨"/subscriptions/S1", "S1"⟩),
      (Kind.KindAZSubscription, ⟨"/subscriptions/S2", "S2"⟩)]).1
  simpa using h

/-! ## Ill-typed upstream items -/

theorem readerLoop_failed (unwrap : Dyn → Unwrapped) (msg : String) (d : Dyn)
    (post : List Dyn) (h : unwrap d = Unwrapped.failed) :
    (readerLoop unwrap msg (d :: post)).sends = []
      ∧ (readerLoop unwrap msg (d :: post)).returns = true
      ∧ (readerLoop unwrap msg (d :: post)).recvs = 1
      ∧ (readerLoop unwrap msg (d :: post)).logs = [msg] := by
  simp [readerLoop, h, Proc.sends, Proc.returns, Proc.recvs, Proc.logs]

theorem readerLoop_panicked (unwrap : Dyn → Unwrapped) (msg : String) (d : Dyn)
    (post : List Dyn) (h : unwrap d = Unwrapped.panicked) :
    (readerLoop unwrap msg (d :: post)).sends = []
      ∧ (readerLoop unwrap msg (d :: post)).returns = false
      ∧ (readerLoop unwrap msg (d :: post)).logs = [] := by
  simp [readerLoop, h, Proc.sends, Proc.returns, Proc.logs]

theorem unwrapSubscription_failed (bad : AzureWrapper)
    (h : ∀ s, bad.Data ≠ Payload.subscription s) :
    unwrapSubscription (Dyn.wrapper bad) = Unwrapped.failed := by
  obtain ⟨k, data⟩ := bad
  cases data <;> first | rfl | exact absurd rfl (h _)

theorem unwrapServicePrincipal_failed (bad : AzureWrapper)
    (h : ∀ p, bad.Data ≠ Payload.servicePrincipal p) :
    unwrapServicePrincipal (Dyn.wrapper bad) = Unwrapped.failed := by
  obtain ⟨k, data⟩ := bad
  cases data <;> first | rfl | exact absurd rfl (h _)

theorem collect_congr (sched : Schedule) (r₁ r₂ : Proc String)
    (worker : List String → Proc AzureWrapper) (h : r₁.sends = r₂.sends) :
    (collect sched r₁ worker).records = (collect sched r₂ worker).records := by
  simp [collect, h]

/-- What the reader goroutine does on an upstream whose first ill-typed envelope
is at index `pre.length`. -/
theorem readerLoop_stops {β : Type} (unwrap : Dyn → Unwrapped) (msg : String)
    (mk : β → Dyn) (key : β → String) (h : ∀ b, unwrap (mk b) = Unwrapped.id (key b))
    (pre : List β) (d : Dyn) (post : List Dyn) (hd : unwrap d = Unwrapped.failed) :
    (readerLoop unwrap msg (pre.map mk ++ d :: post)).sends = pre.map key
      ∧ (readerLoop unwrap msg (pre.map mk ++ d :: post)).recvs = pre.length + 1
      ∧ (readerLoop unwrap msg (pre.map mk ++ d :: post)).logs = [msg]
      ∧ (readerLoop unwrap msg (pre.map mk ++ d :: post)).returns = true := by
  obtain ⟨a1, a2, a3, a4⟩ := readerLoop_map_append unwrap msg mk key h pre (d :: post)
  obtain ⟨b1, b2, b3, b4⟩ := readerLoop_failed unwrap msg d post hd
  rw [a1, a2, a3, a4, b1, b2, b3, b4]
  simp

/-- C5 fails. On the upstream `S1, P9, S2, S3` of `listResourceGroups`, whose first
envelope that is not a subscription sits at index 1, the collector takes three
envelopes off the upstream: its `OrDone` stage takes `S2`, at index 2, after the
reader goroutine has returned.  The same holds for `listServicePrincipalOwners`
on `P1, S9, P2, P3`. -/
theorem collector_takes_the_envelope_after_the_ill_typed_one :
    resourceGroupsTaken
        [Dyn.wrapper ⟨Kind.KindAZSubscription, Payload.subscription ⟨"/subscriptions/S1", "S1"⟩⟩,
          Dyn.wrapper ⟨Kind.KindAZServicePrincipal, Payload.servicePrincipal ⟨"P9"⟩⟩,
          Dyn.wrapper ⟨Kind.KindAZSubscription, Payload.subscription ⟨"/subscriptions/S2", "S2"⟩⟩,
          Dyn.wrapper
            ⟨Kind.KindAZSubscription, Payload.subscription ⟨"/subscriptions/S3", "S3"⟩⟩] = 3
      ∧ servicePrincipalOwnersTaken
        [Dyn.wrapper ⟨Kind.KindAZServicePrincipal, Payload.servicePrincipal ⟨"P1"⟩⟩,
          Dyn.wrapper ⟨Kind.KindAZSubscription, Payload.subscription ⟨"/subscriptions/S9", "S9"⟩⟩,
          Dyn.wrapper ⟨Kind.KindAZServicePrincipal, Payload.servicePrincipal ⟨"P2"⟩⟩,
          Dyn.wrapper ⟨Kind.KindAZServicePrincipal, Payload.servicePrincipal ⟨"P3"⟩⟩] = 3
      ∧ ¬ ∀ (subs : List (Kind × models.Subscription)) (bad : AzureWrapper)
          (post : List AzureWrapper), (∀ s, bad.Data ≠ Payload.subscription s) →
          resourceGroupsTaken
              (subs.map (fun e => Dyn.wrapper ⟨e.1, Payload.subscription e.2⟩) ++
                Dyn.wrapper bad :: post.map Dyn.wrapper) ≤ subs.length + 1 := by
  refine ⟨by decide, by decide, fun h => ?_⟩
  have h2 := h [(Kind.KindAZSubscription, ⟨"/subscriptions/S1", "S1"⟩)]
    ⟨Kind.KindAZServicePrincipal, Payload.servicePrincipal ⟨"P9"⟩⟩
    [⟨Kind.KindAZSubscription, Payload.subscription ⟨"/subscriptions/S2", "S2"⟩⟩]
    (by intro s hs; cases hs)
  revert h2
  decide

/-- C5, amended. When the first envelope of the upstream whose `Data` is not of
the parent type sits at index `k` (after `subs` or `sps`, of length `k`), the
reader goroutine of `listResourceGroups` and of `listServicePrincipalOwners` sends
on `ids` exactly the parent ids of the first `k` envelopes, in order, receives
`k + 1` items and no more, logs once and returns, which closes `ids`; the `OrDone`
stage in front of it takes one envelope more off the upstream, the one at index
`k + 1`, when there is one; the collector emits what it emits on the first `k`
envelopes alone, and its output is closed. -/
theorem reader_stops_at_first_ill_typed_envelope (sched : Schedule) (client : AzureClient)
    (subs : List (Kind × models.Subscription)) (sps : List (Kind × models.ServicePrincipal))
    (badSub badSp : AzureWrapper) (post : List AzureWrapper)
    (hsub : ∀ s, badSub.Data ≠ Payload.subscription s)
    (hsp : ∀ p, badSp.Data ≠ Payload.servicePrincipal p) :
    ((resourceGroupsReader
          (subs.map (fun e => Dyn.wrapper ⟨e.1, Payload.subscription e.2⟩) ++
            Dyn.wrapper badSub :: post.map Dyn.wrapper)).sends =
        subs.map (fun e => e.2.SubscriptionId)
      ∧ (resourceGroupsReader
          (subs.map (fun e => Dyn.wrapper ⟨e.1, Payload.subscription e.2⟩) ++
            Dyn.wrapper badSub :: post.map Dyn.wrapper)).recvs = subs.length + 1
      ∧ resourceGroupsTaken
          (subs.map (fun e => Dyn.wrapper ⟨e.1, Payload.subscription e.2⟩) ++
            Dyn.wrapper badSub :: post.map Dyn.wrapper) = subs.length + 1 + min 1 post.length
      ∧ (resourceGroupsReader
          (subs.map (fun e => Dyn.wrapper ⟨e.1, Payload.subscription e.2⟩) ++
            Dyn.wrapper badSub :: post.map Dyn.wrapper)).logs =
        ["unable to continue enumerating resource groups"]
      ∧ (resourceGroupsReader
          (subs.map (fun e => Dyn.wrapper ⟨e.1, Payload.subscription e.2⟩) ++
            Dyn.wrapper badSub :: post.map Dyn.wrapper)).returns = true
      ∧ (listResourceGroups sched client
          (subs.map (fun e => Dyn.wrapper ⟨e.1, Payload.subscription e.2⟩) ++
            Dyn.wrapper badSub :: post.map Dyn.wrapper)).records =
        (listResourceGroups sched client
          (subs.map fun e => Dyn.wrapper ⟨e.1, Payload.subscription e.2⟩)).records
      ∧ (listResourceGroups sched client
          (subs.map (fun e => Dyn.wrapper ⟨e.1, Payload.subscription e.2⟩) ++
            Dyn.wrapper badSub :: post.map Dyn.wrapper)).closed = true)
    ∧ ((servicePrincipalOwnersReader
          (sps.map (fun e => Dyn.wrapper ⟨e.1, Payload.servicePrincipal e.2⟩) ++
            Dyn.wrapper badSp :: post.map Dyn.wrapper)).sends =
        sps.map (fun e => e.2.Id)
      ∧ (servicePrincipalOwnersReader
          (sps.map (fun e => Dyn.wrapper ⟨e.1, Payload.servicePrincipal e.2⟩) ++
            Dyn.wrapper badSp :: post.map Dyn.wrapper)).recvs = sps.length + 1
      ∧ servicePrincipalOwnersTaken
          (sps.map (fun e => Dyn.wrapper ⟨e.1, Payload.servicePrincipal e.2⟩) ++
            Dyn.wrapper badSp :: post.map Dyn.wrapper) = sps.length + 1 + min 1 post.length
      ∧ (servicePrincipalOwnersReader
          (sps.map (fun e => Dyn.wrapper ⟨e.1, Payload.servicePrincipal e.2⟩) ++
            Dyn.wrapper badSp :: post.map Dyn.wrapper)).logs =
        ["unable to continue enumerating service principal owners"]
      ∧ (servicePrincipalOwnersReader
          (sps.map (fun e => Dyn.wrapper ⟨e.1, Payload.servicePrincipal e.2⟩) ++
            Dyn.wrapper badSp :: post.map Dyn.wrapper)).returns = true
      ∧ (listServicePrincipalOwners sched client
          (sps.map (fun e => Dyn.wrapper ⟨e.1, Payload.servicePrincipal e.2⟩) ++
            Dyn.wrapper badSp :: post.map Dyn.wrapper)).records =
        (listServicePrincipalOwners sched client
          (sps.map fun e => Dyn.wrapper ⟨e.1, Payload.servicePrincipal e.2⟩)).records
      ∧ (listServicePrincipalOwners sched client
          (sps.map (fun e => Dyn.wrapper ⟨e.1, Payload.servicePrincipal e.2⟩) ++
            Dyn.wrapper badSp :: post.map Dyn.wrapper)).closed = true) := by
  obtain ⟨a1, a2, a3, a4⟩ := readerLoop_stops unwrapSubscription
    "unable to continue enumerating resource groups"
    (fun e : Kind × models.Subscription => Dyn.wrapper ⟨e.1, Payload.subscription e.2⟩)
    (fun e => e.2.SubscriptionId) (fun e => unwrapSubscription_wrapper e.1 e.2) subs
    (Dyn.wrapper badSub) (post.map Dyn.wrapper) (unwrapSubscription_failed badSub hsub)
  obtain ⟨b1, b2, b3, b4⟩ := readerLoop_stops unwrapServicePrincipal
    "unable to continue enumerating service principal owners"
    (fun e : Kind × models.ServicePrincipal => Dyn.wrapper ⟨e.1, Payload.servicePrincipal e.2⟩)
    (fun e => e.2.Id) (fun e => unwrapServicePrincipal_wrapper e.1 e.2) sps
    (Dyn.wrapper badSp) (post.map Dyn.wrapper) (unwrapServicePrincipal_failed badSp hsp)
  have c1 := readerLoop_map unwrapSubscription
    "unable to continue enumerating resource groups"
    (fun e : Kind × models.Subscription => Dyn.wrapper ⟨e.1, Payload.subscription e.2⟩)
    (fun e => e.2.SubscriptionId) (fun e => unwrapSubscription_wrapper e.1 e.2) subs
  have c2 := readerLoop_map unwrapServicePrincipal
    "unable to continue enumerating service principal owners"
    (fun e : Kind × models.ServicePrincipal => Dyn.wrapper ⟨e.1, Payload.servicePrincipal e.2⟩)
    (fun e => e.2.Id) (fun e => unwrapServicePrincipal_wrapper e.1 e.2) sps
  refine ⟨⟨a1, a2, ?_, a3, a4, ?_, ?_⟩, ⟨b1, b2, ?_, b3, b4, ?_, ?_⟩⟩
  · simp only [resourceGroupsTaken, OrDoneTaken]
    simp only [resourceGroupsReader, OrDone, a2, List.length_append, List.length_map,
      List.length_cons]
    omega
  · exact collect_congr sched _ _ _ (by
      simp only [resourceGroupsReader, OrDone]
      rw [a1, c1.1])
  · exact collect_closed sched _ _ a4 (resourceGroupsWorker_returns client)
  · simp only [servicePrincipalOwnersTaken, OrDoneTaken]
    simp only [servicePrincipalOwnersReader, OrDone, b2, List.length_append, List.length_map,
      List.length_cons]
    omega
  · exact collect_congr sched _ _ _ (by
      simp only [servicePrincipalOwnersReader, OrDone]
      rw [b1, c2.1])
  · exact collect_closed sched _ _ b4 (servicePrincipalOwnersWorker_returns client)

/-- An instance of the amended C5: a service-principal envelope at index 1 of a
stream of subscriptions, and a subscription envelope at index 1 of a stream of
service principals, each followed by two more envelopes. -/
theorem reader_stops_at_first_ill_typed_envelope_witness :
    ((∀ s, (AzureWrapper.mk Kind.KindAZServicePrincipal
          (Payload.servicePrincipal ⟨"P9"⟩)).Data ≠ Payload.subscription s)
      ∧ (∀ p, (AzureWrapper.mk Kind.KindAZSubscription
          (Payload.subscription ⟨"/subscriptions/S9", "S9"⟩)).Data ≠ Payload.servicePrincipal p))
    ∧ ((resourceGroupsReader
          [Dyn.wrapper ⟨Kind.KindAZSubscription, Payload.subscription ⟨"/subscriptions/S1", "S1"⟩⟩,
            Dyn.wrapper ⟨Kind.KindAZServicePrincipal, Payload.servicePrincipal ⟨"P9"⟩⟩,
            Dyn.wrapper ⟨Kind.KindAZSubscription, Payload.subscription ⟨"/subscriptions/S2", "S2"⟩⟩,
            Dyn.wrapper
              ⟨Kind.KindAZSubscription, Payload.subscription ⟨"/subscriptions/S3", "S3"⟩⟩]).sends =
        ["S1"]
      ∧ (resourceGroupsReader
          [Dyn.wrapper ⟨Kind.KindAZSubscription, Payload.subscription ⟨"/subscriptions/S1", "S1"⟩⟩,
            Dyn.wrapper ⟨Kind.KindAZServicePrincipal, Payload.servicePrincipal ⟨"P9"⟩⟩,
            Dyn.wrapper ⟨Kind.KindAZSubscription, Payload.subscription ⟨"/subscriptions/S2", "S2"⟩⟩,
            Dyn.wrapper
              ⟨Kind.KindAZSubscription, Payload.subscription ⟨"/subscriptions/S3", "S3"⟩⟩]).recvs =
        2
      ∧ resourceGroupsTaken
          [Dyn.wrapper ⟨Kind.KindAZSubscription, Payload.subscription ⟨"/subscriptions/S1", "S1"⟩⟩,
            Dyn.wrapper ⟨Kind.KindAZServicePrincipal, Payload.servicePrincipal ⟨"P9"⟩⟩,
            Dyn.wrapper ⟨Kind.KindAZSubscription, Payload.subscription ⟨"/subscriptions/S2", "S2"⟩⟩,
            Dyn.wrapper
              ⟨Kind.KindAZSubscription, Payload.subscription ⟨"/subscriptions/S3", "S3"⟩⟩] =
        3)
    ∧ (servicePrincipalOwnersReader
          [Dyn.wrapper ⟨Kind.KindAZServicePrincipal, Payload.servicePrincipal ⟨"P1"⟩⟩,
            Dyn.wrapper ⟨Kind.KindAZSubscription, Payload.subscription ⟨"/subscriptions/S9", "S9"⟩⟩,
            Dyn.wrapper ⟨Kind.KindAZSubscription, Payload.subscription ⟨"/subscriptions/S2", "S2"⟩⟩,
            Dyn.wrapper
              ⟨Kind.KindAZSubscription, Payload.subscription ⟨"/subscriptions/S3", "S3"⟩⟩]).sends =
        ["P1"] :=
  have hsub : ∀ s, (AzureWrapper.mk Kind.KindAZServicePrincipal
      (Payload.servicePrincipal ⟨"P9"⟩)).Data ≠ Payload.subscription s := by
    intro s h
    cases h
  have hsp : ∀ p, (AzureWrapper.mk Kind.KindAZSubscription
      (Payload.subscription ⟨"/subscriptions/S9", "S9"⟩)).Data ≠ Payload.servicePrincipal p := by
    intro p h
    cases h
  have h := reader_stops_at_first_ill_typed_envelope ⟨fun i => i, []⟩
    ⟨⟨"t", "T"⟩, [], fun _ => [], fun _ => [], fun _ => []⟩
    [(Kind.KindAZSubscription, ⟨"/subscriptions/S1", "S1"⟩)]
    [(Kind.KindAZServicePrincipal, ⟨"P1"⟩)]
    ⟨Kind.KindAZServicePrincipal, Payload.servicePrincipal ⟨"P9"⟩⟩
    ⟨Kind.KindAZSubscription, Payload.subscription ⟨"/subscriptions/S9", "S9"⟩⟩
    [⟨Kind.KindAZSubscription, Payload.subscription ⟨"/subscriptions/S2", "S2"⟩⟩,
      ⟨Kind.KindAZSubscription, Payload.subscription ⟨"/subscriptions/S3", "S3"⟩⟩] hsub hsp
  ⟨⟨hsub, hsp⟩, ⟨h.1.1, h.1.2.1, h.1.2.2.1⟩, h.2.1⟩

/-- C6, the code at the failing input.  An upstream item that is not an
`AzureWrapper` makes the single-valued assertion `result.(AzureWrapper)` panic:
the reader goroutine of `listResourceGroups` and of `listServicePrincipalOwners`
neither logs nor returns, and the output of the collector is not closed. -/
theorem unwrap_panics_on_foreign_value (sched : Schedule) (client : AzureClient)
    (typeName : String) (post : List Dyn) :
    unwrapSubscription (Dyn.foreign typeName) = Unwrapped.panicked
      ∧ unwrapServicePrincipal (Dyn.foreign typeName) = Unwrapped.panicked
      ∧ (resourceGroupsReader (Dyn.foreign typeName :: post)).returns = false
      ∧ (resourceGroupsReader (Dyn.foreign typeName :: post)).logs = []
      ∧ (listResourceGroups sched client (Dyn.foreign typeName :: post)).closed = false
      ∧ (servicePrincipalOwnersReader (Dyn.foreign typeName :: post)).returns = false
      ∧ (servicePrincipalOwnersReader (Dyn.foreign typeName :: post)).logs = []
      ∧ (listServicePrincipalOwners sched client (Dyn.foreign typeName :: post)).closed =
        false := by
  obtain ⟨_, a2, a3⟩ := readerLoop_panicked unwrapSubscription
    "unable to continue enumerating resource groups" (Dyn.foreign typeName) post rfl
  obtain ⟨_, b2, b3⟩ := readerLoop_panicked unwrapServicePrincipal
    "unable to continue enumerating service principal owners" (Dyn.foreign typeName) post rfl
  refine ⟨rfl, rfl, a2, a3, ?_, b2, b3, ?_⟩
  · simp only [listResourceGroups, collect, resourceGroupsReader, OrDone] at a2 ⊢
    simp [a2]
  · simp only [listServicePrincipalOwners, collect, servicePrincipalOwnersReader, OrDone] at b2 ⊢
    simp [b2]

/-! ## Kinds and payloads -/

theorem collect_records_mem (sched : Schedule) (reader : Proc String)
    (worker : List String → Proc AzureWrapper) (r : AzureWrapper)
    (h : r ∈ (collect sched reader worker).records) : ∃ ids, r ∈ (worker ids).sends := by
  have h2 := (interleave_perm sched.out _).mem_iff.1 h
  simp only [List.mem_flatten, List.mem_map] at h2
  obtain ⟨l, ⟨p, ⟨ids, _, rfl⟩, rfl⟩, hr⟩ := h2
  exact ⟨ids, hr⟩

/-- C7. Every record of `listApps` is a `KindAZApp` envelope of a `models.App`,
every record of `listResourceGroups` a `KindAZResourceGroup` envelope of a
`models.ResourceGroup`, and every record of `listServicePrincipalOwners` a
`KindAZServicePrincipalOwner` envelope of a `models.ServicePrincipalOwners`,
whatever the client, the upstream and the schedule. -/
theorem records_kind_matches_payload (sched : Schedule) (client : AzureClient)
    (upstream : List Dyn) :
    (∀ r ∈ (listApps client).records,
        r.Kind = Kind.KindAZApp ∧ ∃ a, r.Data = Payload.app a)
      ∧ (∀ r ∈ (listResourceGroups sched client upstream).records,
        r.Kind = Kind.KindAZResourceGroup ∧ ∃ g, r.Data = Payload.resourceGroup g)
      ∧ (∀ r ∈ (listServicePrincipalOwners sched client upstream).records,
        r.Kind = Kind.KindAZServicePrincipalOwner
          ∧ ∃ o, r.Data = Payload.servicePrincipalOwners o) := by
  refine ⟨?_, ?_, ?_⟩
  · intro r hr
    simp only [listApps, listAppsProc, listAppsLoop_sends, List.mem_map] at hr
    obtain ⟨item, _, rfl⟩ := hr
    exact ⟨rfl, _, rfl⟩
  · intro r hr
    obtain ⟨ids, h⟩ := collect_records_mem sched _ _ r hr
    simp only [resourceGroupsWorker_sends, List.mem_flatMap, List.mem_map] at h
    obtain ⟨id, _, item, _, rfl⟩ := h
    exact ⟨rfl, _, rfl⟩
  · intro r hr
    obtain ⟨ids, h⟩ := collect_records_mem sched _ _ r hr
    simp only [servicePrincipalOwnersWorker_sends, List.mem_flatMap, List.mem_singleton] at h
    obtain ⟨id, _, rfl⟩ := h
    exact ⟨rfl, _, rfl⟩

/-! ## The wiring of `listAll` -/

/-- C8. `listAll` makes 38 channels; each is an output of exactly one `Tee` and
is read in exactly one place, as the upstream argument of one collector call or
as one argument of the final `Mux`; so every `Tee` has as many outputs, all
distinct, as there are readers of its outputs. -/
theorem listAll_tee_outputs_have_one_reader :
    Fintype.card Chan = 38
      ∧ (∀ ch : Chan, listAll.writers ch = 1 ∧ listAll.readers ch = 1)
      ∧ (∀ t ∈ listAll.tees,
          t.outs.Nodup ∧ t.outs.length = (t.outs.map listAll.readers).sum) := by
  refine ⟨by decide, by decide, by decide⟩

/-- C9 fails for `listVirtualMachineRoleAssignments`: it is called in `listAll`,
and neither its result nor any of the six tee copies of its output is an argument
of the final `Mux`. -/
theorem listAll_vmRoleAssignments_not_merged :
    Collector.listVirtualMachineRoleAssignments ∈ listAll.calls.map Call.collector
      ∧ listAll.merged Collector.listVirtualMachineRoleAssignments = 0
      ∧ ¬ ∀ c ∈ listAll.calls.map Call.collector, listAll.merged c = 1 := by
  refine ⟨by decide, by decide, by decide⟩

/-- C9, amended. Every collector is called exactly once in `listAll`, and for
every collector but `listVirtualMachineRoleAssignments` its result or one tee copy
of its output is an argument of the final `Mux`, exactly once; the output of
`listVirtualMachineRoleAssignments` is not an argument of the `Mux`: each of its
six tee copies is the upstream of one collector call, and the result of each of
those calls is an argument of the `Mux`. -/
theorem listAll_merges_all_but_vmRoleAssignments :
    (∀ c : Collector, (listAll.calls.map Call.collector).count c = 1)
      ∧ (∀ c : Collector,
          listAll.merged c =
            if c = Collector.listVirtualMachineRoleAssignments then 0 else 1)
      ∧ (∀ ch ∈ listAll.copies Collector.listVirtualMachineRoleAssignments,
          ∃ call ∈ listAll.bound,
            call.upstream = some ch ∧ listAll.mux.count (MuxArg.result call.collector) = 1) := by
  refine ⟨by decide, by decide, by decide⟩

/-! ## Blocking and cancellation -/

namespace Proc

variable {ο : Type}

theorem runFrom_done (env : Nat → Env) (t n : Nat) (out : List ο) :
    runFrom env t n (done, out) = (done, out) := by
  induction n generalizing t with
  | zero => rfl
  | succ n ih => simp [runFrom, step, ih]

theorem runFrom_send_blocked (env : Nat → Env) (hno : ∀ i, (env i).receiver = false)
    (v : ο) (k : Proc ο) (t n : Nat) (out : List ο) :
    runFrom env t n (send v k, out) = (send v k, out) := by
  induction n generalizing t with
  | zero => rfl
  | succ n ih => simp [runFrom, step, hno t, ih]

theorem runFrom_returns (env : Nat → Env) (hrecv : ∀ i, (env i).receiver = true)
    (p : Proc ο) (hp : p.panicFree = true) (t n : Nat) (hn : p.size ≤ n) (out : List ο) :
    (runFrom env t n (p, out)).1 = done := by
  induction p generalizing t n out with
  | done => rw [runFrom_done]
  | panic => simp [panicFree] at hp
  | log msg k ih =>
    cases n with
    | zero => simp [size] at hn
    | succ n =>
      simp only [runFrom, step]
      exact ih hp (t + 1) n (by simp only [size] at hn; omega) out
  | send v k ih =>
    cases n with
    | zero => simp [size] at hn
    | succ n =>
      simp only [runFrom, step, hrecv t, if_true]
      exact ih hp (t + 1) n (by simp only [size] at hn; omega) _
  | recv a b iha ihb =>
    simp only [panicFree, Bool.and_eq_true] at hp
    cases n with
    | zero => simp [size] at hn
    | succ n =>
      simp only [size] at hn
      simp only [runFrom, step]
      split
      · exact ihb hp.2 (t + 1) n (by omega) out
      · exact iha hp.1 (t + 1) n (by omega) out

theorem run_returns (env : Nat → Env) (hrecv : ∀ i, (env i).receiver = true)
    (p : Proc ο) (hp : p.panicFree = true) : (run env p.size p).1 = done :=
  runFrom_returns env hrecv p hp 0 p.size (Nat.le_refl _) []

end Proc

theorem listAppsLoop_panicFree (client : AzureClient) (items : List azure.ApplicationResult) :
    (listAppsLoop client items).panicFree = true := by
  induction items with
  | nil => rfl
  | cons item rest ih =>
    by_cases h : item.Error = none <;> simp [listAppsLoop, Proc.panicFree, h, ih]

theorem readerLoop_panicFree (unwrap : Dyn → Unwrapped) (msg : String)
    (hu : ∀ w, unwrap (Dyn.wrapper w) ≠ Unwrapped.panicked) (upstream : List AzureWrapper) :
    (readerLoop unwrap msg (upstream.map Dyn.wrapper)).panicFree = true := by
  induction upstream with
  | nil => rfl
  | cons w rest ih =>
    simp only [List.map_cons, readerLoop, Proc.panicFree, Bool.and_true]
    have := hu w
    split
    · simpa [Proc.panicFree] using ih
    · rfl
    · next h => exact absurd h this

theorem unwrapSubscription_ne_panicked (w : AzureWrapper) :
    unwrapSubscription (Dyn.wrapper w) ≠ Unwrapped.panicked := by
  obtain ⟨k, data⟩ := w
  cases data <;> simp [unwrapSubscription]

theorem unwrapServicePrincipal_ne_panicked (w : AzureWrapper) :
    unwrapServicePrincipal (Dyn.wrapper w) ≠ Unwrapped.panicked := by
  obtain ⟨k, data⟩ := w
  cases data <;> simp [unwrapServicePrincipal]

theorem resourceGroupsItems_panicFree (k : Proc AzureWrapper) (hk : k.panicFree = true)
    (items : List azure.ResourceGroupResult) :
    (resourceGroupsItems k items).panicFree = true := by
  induction items with
  | nil => simpa [resourceGroupsItems, Proc.panicFree] using hk
  | cons item more ih =>
    by_cases h : item.Error = none <;> simp [resourceGroupsItems, Proc.panicFree, h, ih, hk]

theorem resourceGroupsWorker_panicFree (client : AzureClient) (ids : List String) :
    (resourceGroupsWorker client ids).panicFree = true := by
  induction ids with
  | nil => rfl
  | cons id ids ih =>
    simp [resourceGroupsWorker, Proc.panicFree, resourceGroupsItems_panicFree _ ih]

theorem servicePrincipalOwnersItems_panicFree
    (k : models.ServicePrincipalOwners → Proc AzureWrapper)
    (hk : ∀ acc, (k acc).panicFree = true) (acc : models.ServicePrincipalOwners)
    (items : List azure.ServicePrincipalOwnerResult) :
    (servicePrincipalOwnersItems k acc items).panicFree = true := by
  induction items generalizing acc with
  | nil => simpa [servicePrincipalOwnersItems] using hk acc
  | cons item more ih =>
    by_cases h : item.Error = none <;>
      simp [servicePrincipalOwnersItems, Proc.panicFree, h, ih, hk]

theorem servicePrincipalOwnersWorker_panicFree (client : AzureClient) (ids : List String) :
    (servicePrincipalOwnersWorker client ids).panicFree = true := by
  induction ids with
  | nil => rfl
  | cons id ids ih =>
    simp only [servicePrincipalOwnersWorker, Proc.panicFree, Bool.and_true]
    exact servicePrincipalOwnersItems_panicFree _ (fun acc => by simpa [Proc.panicFree] using ih)
      _ _


/-- C10 fails. With one ok application, the goroutine of `listApps` takes the item
and reaches `out <- AzureWrapper{...}`; if the signal then fires and the consumer
has stopped reading, the unconditional send never completes and the goroutine
never returns, so `out` is never closed. -/
theorem listApps_blocked_send_ignores_cancellation :
    ¬ ∀ (client : AzureClient) (env : Nat → Env),
        (∃ t, ∀ i, t ≤ i → (env i).cancelled = true ∧ (env i).receiver = false) →
        ∃ n, ((listAppsProc client).run env n).1.returned = true := by
  intro h
  obtain ⟨n, hn⟩ := h
    ⟨⟨"t", "T"⟩, [⟨none, ⟨"a"⟩⟩], fun _ => [], fun _ => [], fun _ => []⟩
    (fun i => ⟨decide (1 ≤ i), false, false⟩)
    ⟨1, fun i hi => ⟨by simpa using hi, rfl⟩⟩
  have hblocked : ∀ m, ((listAppsProc
      ⟨⟨"t", "T"⟩, [⟨none, ⟨"a"⟩⟩], fun _ => [], fun _ => [], fun _ => []⟩).run
      (fun i => ⟨decide (1 ≤ i), false, false⟩) m).1.returned = false := by
    intro m
    rcases m with _ | _ | m
    · rfl
    · rfl
    · simp only [Proc.run, Proc.runFrom, listAppsProc, listAppsLoop, Proc.step]
      rw [if_neg (by decide), if_neg (by simp)]
      rw [Proc.runFrom_send_blocked _ (fun _ => rfl)]
      rfl
  rw [hblocked n] at hn
  exact Bool.false_ne_true hn

namespace Proc

variable {ο : Type}

theorem runFrom_panic (env : Nat → Env) (t n : Nat) (out : List ο) :
    runFrom env t n (panic, out) = (panic, out) := by
  induction n generalizing t with
  | zero => rfl
  | succ n ih => simp [runFrom, step, ih]

/-- On a run where nothing is cancelled and every send is received, the values
delivered are `sends`, and the goroutine has returned exactly when `returns`. -/
theorem runFrom_sends (env : Nat → Env)
    (henv : ∀ i, (env i).cancelled = false ∧ (env i).receiver = true)
    (p : Proc ο) (t n : Nat) (hn : p.size ≤ n) (out : List ο) :
    (runFrom env t n (p, out)).2 = out ++ p.sends
      ∧ (runFrom env t n (p, out)).1.returned = p.returns := by
  induction p generalizing t n out with
  | done => simp [runFrom_done, sends, returned, returns]
  | panic => simp [runFrom_panic, sends, returned, returns]
  | log msg k ih =>
    cases n with
    | zero => simp [size] at hn
    | succ n =>
      simp only [runFrom, step, sends, returns]
      exact ih (t + 1) n (by simp only [size] at hn; omega) out
  | send v k ih =>
    cases n with
    | zero => simp [size] at hn
    | succ n =>
      simp only [runFrom, step, (henv t).2, if_true, sends, returns]
      have := ih (t + 1) n (by simp only [size] at hn; omega) (out ++ [v])
      simpa using this
  | recv a b iha _ =>
    cases n with
    | zero => simp [size] at hn
    | succ n =>
      simp only [size] at hn
      simp only [runFrom, step, (henv t).1, Bool.false_and, sends, returns]
      exact iha (t + 1) n (by omega) out

end Proc

/-! ## The subscription id of a resource-group record -/

/-- The records of `listResourceGroups` on a well-typed upstream, up to order. -/
theorem listResourceGroups_records_perm (sched : Schedule) (client : AzureClient)
    (upstream : List (Kind × models.Subscription)) :
    (listResourceGroups sched client
        (upstream.map fun e => Dyn.wrapper ⟨e.1, Payload.subscription e.2⟩)).records.Perm
      (upstream.flatMap fun e =>
        ((client.ListAzureResourceGroups e.2.SubscriptionId).filter fun item =>
          decide (item.Error = none)).map resourceGroupRecord) := by
  have hr := readerLoop_map unwrapSubscription
    "unable to continue enumerating resource groups"
    (fun e : Kind × models.Subscription => Dyn.wrapper ⟨e.1, Payload.subscription e.2⟩)
    (fun e => e.2.SubscriptionId) (fun e => unwrapSubscription_wrapper e.1 e.2) upstream
  have hp := collect_records_perm sched
    (resourceGroupsReader (upstream.map fun e => Dyn.wrapper ⟨e.1, Payload.subscription e.2⟩))
    (resourceGroupsWorker client) _ (resourceGroupsWorker_sends client)
  simp only [resourceGroupsReader, OrDone, hr.1] at hp
  refine hp.trans (List.Perm.of_eq ?_)
  rw [List.flatMap_map]

/-- C11 fails. The subscription `S1` is upstream and the client answers
`ListAzureResourceGroups("S1")` with an ok item whose `SubscriptionId` field is
`"S2"`: the record emitted while enumerating `S1` carries `"S2"`. -/
theorem listResourceGroups_subscriptionId_is_the_client_field :
    ¬ ∀ (sched : Schedule) (client : AzureClient) (k : Kind) (s : models.Subscription)
        (r : AzureWrapper) (g : models.ResourceGroup),
        r ∈ (listResourceGroups sched client
          [Dyn.wrapper ⟨k, Payload.subscription s⟩]).records →
        r.Data = Payload.resourceGroup g → g.SubscriptionId = s.SubscriptionId := by
  intro h
  have h2 := h ⟨fun i => i, []⟩
    ⟨⟨"t", "T"⟩, [], fun _ => [⟨"S2", none, ⟨"g1"⟩⟩], fun _ => [], fun _ => []⟩
    Kind.KindAZSubscription ⟨"/subscriptions/S1", "S1"⟩
    ⟨Kind.KindAZResourceGroup, Payload.resourceGroup ⟨⟨"g1"⟩, "S2"⟩⟩ ⟨⟨"g1"⟩, "S2"⟩
    (by decide) rfl
  exact absurd h2 (by decide)

/-- C11, amended. On an upstream of subscription envelopes, every record of
`listResourceGroups` is built from an ok item that the client returned for the
id `S` of an upstream subscription, and its `SubscriptionId` is the
`SubscriptionId` field of that item; when the client stamps each ok item with the
id it was called with, the records are, up to order, the ok items of each
upstream subscription `S` with `SubscriptionId = S`. -/
theorem listResourceGroups_subscriptionId_from_item (sched : Schedule) (client : AzureClient)
    (upstream : List (Kind × models.Subscription)) :
    (∀ r ∈ (listResourceGroups sched client
          (upstream.map fun e => Dyn.wrapper ⟨e.1, Payload.subscription e.2⟩)).records,
        ∃ e ∈ upstream, ∃ item ∈ client.ListAzureResourceGroups e.2.SubscriptionId,
          item.Error = none
            ∧ r = { Kind := Kind.KindAZResourceGroup
                    Data := Payload.resourceGroup
                      { ResourceGroup := item.Ok, SubscriptionId := item.SubscriptionId } })
      ∧ ((∀ id, ∀ item ∈ client.ListAzureResourceGroups id,
            item.Error = none → item.SubscriptionId = id) →
          (listResourceGroups sched client
              (upstream.map fun e => Dyn.wrapper ⟨e.1, Payload.subscription e.2⟩)).records.Perm
            (upstream.flatMap fun e =>
              ((client.ListAzureResourceGroups e.2.SubscriptionId).filter fun item =>
                decide (item.Error = none)).map fun item =>
                  { Kind := Kind.KindAZResourceGroup
                    Data := Payload.resourceGroup
                      { ResourceGroup := item.Ok
                        SubscriptionId := e.2.SubscriptionId } })) := by
  have hp := listResourceGroups_records_perm sched client upstream
  constructor
  · intro r hr
    have h := hp.mem_iff.1 hr
    simp only [List.mem_flatMap, List.mem_map, List.mem_filter, decide_eq_true_eq] at h
    obtain ⟨e, he, item, ⟨hi, hok⟩, rfl⟩ := h
    exact ⟨e, he, item, hi, hok, rfl⟩
  · intro hclient
    refine hp.trans (List.Perm.of_eq ?_)
    congr 1
    funext e
    apply List.map_congr_left
    intro item hitem
    simp only [List.mem_filter, decide_eq_true_eq] at hitem
    simp only [resourceGroupRecord, hclient _ item hitem.1 hitem.2]

/-- An instance of the amended C11: a client that stamps its items with the id it
was called with. -/
theorem listResourceGroups_subscriptionId_from_item_witness :
    (∀ id, ∀ item ∈ (fun id : String =>
          [azure.ResourceGroupResult.mk id none ⟨"g1"⟩,
            azure.ResourceGroupResult.mk "" (some "throttled") ⟨""⟩]) id,
        item.Error = none → item.SubscriptionId = id)
      ∧ (listResourceGroups ⟨fun i => i, []⟩
          ⟨⟨"t", "T"⟩, [],
            fun id => [⟨id, none, ⟨"g1"⟩⟩, ⟨"", some "throttled", ⟨""⟩⟩],
            fun _ => [], fun _ => []⟩
          [Dyn.wrapper ⟨Kind.KindAZSubscription,
            Payload.subscription ⟨"/subscriptions/S1", "S1"⟩⟩]).records.Perm
        [⟨Kind.KindAZResourceGroup, Payload.resourceGroup ⟨⟨"g1"⟩, "S1"⟩⟩] :=
  have hc : ∀ id, ∀ item ∈ (fun id : String =>
        [azure.ResourceGroupResult.mk id none ⟨"g1"⟩,
          azure.ResourceGroupResult.mk "" (some "throttled") ⟨""⟩]) id,
      item.Error = none → item.SubscriptionId = id := by
    intro id item hitem hok
    simp only [List.mem_cons, List.mem_singleton, List.not_mem_nil, or_false] at hitem
    rcases hitem with rfl | rfl
    · rfl
    · simp at hok
  ⟨hc,
    (listResourceGroups_subscriptionId_from_item ⟨fun i => i, []⟩
      ⟨⟨"t", "T"⟩, [],
        fun id => [⟨id, none, ⟨"g1"⟩⟩, ⟨"", some "throttled", ⟨""⟩⟩],
        fun _ => [], fun _ => []⟩
      [(Kind.KindAZSubscription, ⟨"/subscriptions/S1", "S1"⟩)]).2 hc⟩

/-! ## The key-vault access-type filter -/

/-- C12, the code at the failing input.  The filter that `listAll` passes to
`listKeyVaultAccessPolicies` is `GetCerts, GetKeys, GetCerts`: its first and third
entries are the same value, so the three entries are not pairwise distinct and
the filter names only two access types. -/
theorem listAll_keyVaultAccessTypes_repeat_GetCerts :
    listAllKeyVaultAccessTypes =
        [KeyVaultAccessType.GetCerts, KeyVaultAccessType.GetKeys, KeyVaultAccessType.GetCerts]
      ∧ listAllKeyVaultAccessTypes.get? 0 = listAllKeyVaultAccessTypes.get? 2
      ∧ ¬ listAllKeyVaultAccessTypes.Nodup
      ∧ listAllKeyVaultAccessTypes.dedup.length = 2 := by
  refine ⟨rfl, rfl, by decide, by decide⟩

/-! ## Unconditional sends -/

namespace Proc

variable {ο : Type}

theorem runFrom_terminal (env : Nat → Env) (hrecv : ∀ i, (env i).receiver = true)
    (p : Proc ο) (t n : Nat) (hn : p.size ≤ n) (out : List ο) :
    (runFrom env t n (p, out)).1 = done ∨ (runFrom env t n (p, out)).1 = panic := by
  induction p generalizing t n out with
  | done => exact Or.inl (by rw [runFrom_done])
  | panic => exact Or.inr (by rw [runFrom_panic])
  | log msg k ih =>
    cases n with
    | zero => simp [size] at hn
    | succ n =>
      simp only [runFrom, step]
      exact ih (t + 1) n (by simp only [size] at hn; omega) out
  | send v k ih =>
    cases n with
    | zero => simp [size] at hn
    | succ n =>
      simp only [runFrom, step, hrecv t, if_true]
      exact ih (t + 1) n (by simp only [size] at hn; omega) _
  | recv a b iha ihb =>
    cases n with
    | zero => simp [size] at hn
    | succ n =>
      simp only [size] at hn
      simp only [runFrom, step]
      split
      · exact ihb (t + 1) n (by omega) out
      · exact iha (t + 1) n (by omega) out

theorem size_le_foldr_max (l : List (Proc ο)) (p : Proc ο) (hp : p ∈ l) :
    p.size ≤ (l.map size).foldr max 0 := by
  induction l with
  | nil => simp at hp
  | cons q l ih =>
    simp only [List.map_cons, List.foldr_cons]
    rcases List.mem_cons.1 hp with rfl | h
    · exact Nat.le_max_left _ _
    · exact Nat.le_trans (ih h) (Nat.le_max_right _ _)

end Proc

/-- Every worker of a group returns when its sends are received. -/
theorem Goroutines.run_outClosed (envReader : Nat → Env) (envWorker : Nat → Nat → Env)
    (hW : ∀ w i, (envWorker w i).receiver = true) (g : Goroutines)
    (hg : ∀ p ∈ g.workers, p.panicFree = true) (n : Nat) (hn : g.size ≤ n) :
    (g.run envReader envWorker n).outClosed = true := by
  simp only [Goroutines.outClosed, Goroutines.run, List.all_eq_true, List.mem_map]
  rintro x ⟨p, hp, rfl⟩
  have hmem : p.2 ∈ g.workers := List.snd_mem_of_mem_enum hp
  have hsize : p.2.size ≤ n :=
    Nat.le_trans (Proc.size_le_foldr_max _ _ hmem)
      (Nat.le_trans (Nat.le_max_right _ _) hn)
  have := Proc.runFrom_returns (envWorker p.1) (hW p.1) p.2 (hg _ hmem) 0 n hsize []
  simp only [Proc.run, this, Proc.returned]

theorem exists_map_wrapper (upstream : List Dyn) (h : ∀ d ∈ upstream, ∃ w, d = Dyn.wrapper w) :
    ∃ ws : List AzureWrapper, upstream = ws.map Dyn.wrapper := by
  induction upstream with
  | nil => exact ⟨[], rfl⟩
  | cons d l ih =>
    obtain ⟨w, rfl⟩ := h d (List.mem_cons_self _ _)
    obtain ⟨ws, rfl⟩ := ih fun x hx => h x (List.mem_cons_of_mem _ hx)
    exact ⟨w :: ws, rfl⟩

/-- The reader of a group ends in a return or in a panic when its sends are
received, and in a return on an upstream of envelopes. -/
theorem readerLoop_run (env : Nat → Env) (hR : ∀ i, (env i).receiver = true)
    (unwrap : Dyn → Unwrapped) (msg : String)
    (hu : ∀ w, unwrap (Dyn.wrapper w) ≠ Unwrapped.panicked) (upstream : List Dyn) (n : Nat)
    (hn : (readerLoop unwrap msg upstream).size ≤ n) :
    (((readerLoop unwrap msg upstream).run env n).1 = Proc.done
        ∨ ((readerLoop unwrap msg upstream).run env n).1 = Proc.panic)
      ∧ ((∀ d ∈ upstream, ∃ w, d = Dyn.wrapper w) →
        ((readerLoop unwrap msg upstream).run env n).1 = Proc.done) := by
  refine ⟨Proc.runFrom_terminal env hR _ 0 n hn [], fun h => ?_⟩
  obtain ⟨ws, rfl⟩ := exists_map_wrapper upstream h
  exact Proc.runFrom_returns env hR _ (readerLoop_panicFree unwrap msg hu ws) 0 n hn []

theorem servicePrincipalOwnersItems_blocked (env : Nat → Env)
    (hB : ∀ i, (env i).receiver = false)
    (k : models.ServicePrincipalOwners → Proc AzureWrapper)
    (hk : ∀ acc, ∃ v k', k acc = Proc.send v k')
    (items : List azure.ServicePrincipalOwnerResult) (acc : models.ServicePrincipalOwners)
    (t n : Nat) (out : List AzureWrapper) :
    (Proc.runFrom env t n (servicePrincipalOwnersItems k acc items, out)).1.returned = false
      ∧ (Proc.runFrom env t n (servicePrincipalOwnersItems k acc items, out)).2 = out := by
  have hsend : ∀ acc t n,
      (Proc.runFrom env t n (k acc, out)).1.returned = false
        ∧ (Proc.runFrom env t n (k acc, out)).2 = out := by
    intro acc t n
    obtain ⟨v, k', h⟩ := hk acc
    rw [h, Proc.runFrom_send_blocked env hB]
    exact ⟨rfl, rfl⟩
  induction items generalizing acc t n with
  | nil => exact hsend acc t n
  | cons item more ih =>
    cases n with
    | zero => exact ⟨rfl, rfl⟩
    | succ n =>
      simp only [servicePrincipalOwnersItems, Proc.runFrom, Proc.step]
      split
      · exact hsend acc (t + 1) n
      · split
        · cases n with
          | zero => exact ⟨rfl, rfl⟩
          | succ n =>
            simp only [Proc.runFrom, Proc.step]
            exact ih acc (t + 1 + 1) n
        · cases n with
          | zero => exact ⟨rfl, rfl⟩
          | succ n =>
            simp only [Proc.runFrom, Proc.step]
            exact ih _ (t + 1 + 1) n

/-- C10, amended. In `listApps`, `listResourceGroups` and
`listServicePrincipalOwners` every send, on the output stream and on `ids`, is an
unconditional send, and the signal is observed at the receives only.

Without a receiver (`envB`), whatever the signal does: the goroutine of `listApps`
with an ok item in hand, a reader with a parent envelope in hand and a worker of
`listResourceGroups` with an ok item in hand stay at their send for ever, and a
worker of `listServicePrincipalOwners` that has taken an id never returns; nothing
is delivered.

When every send is received (`envR`, `envW`), whether or not the signal has
fired: the goroutine of `listApps` returns, which closes its output; every worker
of the two dependent collectors returns, and their reader returns on an upstream
of envelopes, so that `ids` and the output are closed; on any other upstream the
reader ends in a return or in the panic of C6. -/
theorem collector_sends_are_unconditional (envB envR : Nat → Env) (envW : Nat → Nat → Env)
    (hB : ∀ i, (envB i).receiver = false) (hR : ∀ i, (envR i).receiver = true)
    (hW : ∀ w i, (envW w i).receiver = true) (sched : Schedule) (client : AzureClient) :
    (∀ (item : azure.ApplicationResult) (rest : List azure.ApplicationResult) (t n : Nat)
        (out : List AzureWrapper), item.Error = none →
        ((envB t).cancelled && !(envB t).handsOver) = false →
        Proc.runFrom envB t (n + 2) (listAppsLoop client (item :: rest), out) =
          (Proc.send (appRecord client item) (listAppsLoop client rest), out))
      ∧ (∀ (k : Kind) (s : models.Subscription) (rest : List Dyn) (t n : Nat)
          (out : List String), ((envB t).cancelled && !(envB t).handsOver) = false →
          Proc.runFrom envB t (n + 1)
              (resourceGroupsReader (Dyn.wrapper ⟨k, Payload.subscription s⟩ :: rest), out) =
            (Proc.send s.SubscriptionId (resourceGroupsReader rest), out))
      ∧ (∀ (cont : Proc AzureWrapper) (item : azure.ResourceGroupResult)
          (more : List azure.ResourceGroupResult) (t n : Nat) (out : List AzureWrapper),
          item.Error = none → ((envB t).cancelled && !(envB t).handsOver) = false →
          Proc.runFrom envB t (n + 2) (resourceGroupsItems cont (item :: more), out) =
            (Proc.send (resourceGroupRecord item) (resourceGroupsItems cont more), out))
      ∧ (∀ (k : Kind) (p : models.ServicePrincipal) (rest : List Dyn) (t n : Nat)
          (out : List String), ((envB t).cancelled && !(envB t).handsOver) = false →
          Proc.runFrom envB t (n + 1)
              (servicePrincipalOwnersReader
                (Dyn.wrapper ⟨k, Payload.servicePrincipal p⟩ :: rest), out) =
            (Proc.send p.Id (servicePrincipalOwnersReader rest), out))
      ∧ (∀ (id : String) (ids : List String) (t n : Nat) (out : List AzureWrapper),
          ((envB t).cancelled && !(envB t).handsOver) = false →
          (Proc.runFrom envB t n
              (servicePrincipalOwnersWorker client (id :: ids), out)).1.returned = false
            ∧ (Proc.runFrom envB t n
              (servicePrincipalOwnersWorker client (id :: ids), out)).2 = out)
      ∧ (∀ n, (listAppsProc client).size ≤ n →
          ((listAppsProc client).run envR n).1.returned = true)
      ∧ (∀ (upstream : List Dyn) (n : Nat),
          (listResourceGroupsGoroutines sched client upstream).size ≤ n →
          ((listResourceGroupsGoroutines sched client upstream).run envR envW n).outClosed =
              true
            ∧ (((listResourceGroupsGoroutines sched client upstream).run envR envW
                  n).idsClosed = true
              ∨ ((listResourceGroupsGoroutines sched client upstream).run envR envW
                  n).reader = Proc.panic)
            ∧ ((∀ d ∈ upstream, ∃ w, d = Dyn.wrapper w) →
              ((listResourceGroupsGoroutines sched client upstream).run envR envW
                  n).idsClosed = true))
      ∧ (∀ (upstream : List Dyn) (n : Nat),
          (listServicePrincipalOwnersGoroutines sched client upstream).size ≤ n →
          ((listServicePrincipalOwnersGoroutines sched client upstream).run envR envW
                n).outClosed = true
            ∧ (((listServicePrincipalOwnersGoroutines sched client upstream).run envR envW
                  n).idsClosed = true
              ∨ ((listServicePrincipalOwnersGoroutines sched client upstream).run envR envW
                  n).reader = Proc.panic)
            ∧ ((∀ d ∈ upstream, ∃ w, d = Dyn.wrapper w) →
              ((listServicePrincipalOwnersGoroutines sched client upstream).run envR envW
                  n).idsClosed = true)) := by
  refine ⟨?_, ?_, ?_, ?_, ?_, ?_, ?_, ?_⟩
  · intro item rest t n out hok ht
    simp only [Proc.runFrom, listAppsLoop, Proc.step, ht, hok, ne_eq, not_true_eq_false,
      if_false, Bool.false_eq_true]
    exact Proc.runFrom_send_blocked envB hB _ _ _ _ _
  · intro k s rest t n out ht
    simp only [Proc.runFrom, resourceGroupsReader, OrDone, readerLoop, unwrapSubscription,
      Proc.step, ht, Bool.false_eq_true, if_false]
    exact Proc.runFrom_send_blocked envB hB _ _ _ _ _
  · intro cont item more t n out hok ht
    simp only [Proc.runFrom, resourceGroupsItems, Proc.step, ht, hok, ne_eq, not_true_eq_false,
      if_false, Bool.false_eq_true]
    exact Proc.runFrom_send_blocked envB hB _ _ _ _ _
  · intro k p rest t n out ht
    simp only [Proc.runFrom, servicePrincipalOwnersReader, OrDone, readerLoop,
      unwrapServicePrincipal, Proc.step, ht, Bool.false_eq_true, if_false]
    exact Proc.runFrom_send_blocked envB hB _ _ _ _ _
  · intro id ids t n out ht
    cases n with
    | zero => exact ⟨rfl, rfl⟩
    | succ n =>
      simp only [Proc.runFrom, servicePrincipalOwnersWorker, Proc.step, ht, Bool.false_eq_true,
        if_false]
      exact servicePrincipalOwnersItems_blocked envB hB _ (fun acc => ⟨_, _, rfl⟩) _ _ _ _ _
  · intro n hn
    have := Proc.runFrom_returns envR hR _ (listAppsLoop_panicFree client _) 0 n hn []
    simp only [Proc.run, listAppsProc] at this ⊢
    rw [this]
    rfl
  · intro upstream n hn
    have hsz : (resourceGroupsReader upstream).size ≤ n :=
      Nat.le_trans (Nat.le_max_left _ _) hn
    obtain ⟨h1, h2⟩ := readerLoop_run envR hR unwrapSubscription
      "unable to continue enumerating resource groups" unwrapSubscription_ne_panicked
      upstream n hsz
    refine ⟨Goroutines.run_outClosed envR envW hW _ ?_ n hn, ?_, ?_⟩
    · intro p hp
      simp only [listResourceGroupsGoroutines, List.mem_map] at hp
      obtain ⟨ids, _, rfl⟩ := hp
      exact resourceGroupsWorker_panicFree client ids
    · rcases h1 with h | h
      · left
        simp only [Goroutines.idsClosed, Goroutines.run, listResourceGroupsGoroutines,
          resourceGroupsReader, OrDone, h, Proc.returned]
      · right
        simp only [Goroutines.run, listResourceGroupsGoroutines, resourceGroupsReader, OrDone,
          h]
    · intro hw
      simp only [Goroutines.idsClosed, Goroutines.run, listResourceGroupsGoroutines,
        resourceGroupsReader, OrDone, h2 hw, Proc.returned]
  · intro upstream n hn
    have hsz : (servicePrincipalOwnersReader upstream).size ≤ n :=
      Nat.le_trans (Nat.le_max_left _ _) hn
    obtain ⟨h1, h2⟩ := readerLoop_run envR hR unwrapServicePrincipal
      "unable to continue enumerating service principal owners"
      unwrapServicePrincipal_ne_panicked upstream n hsz
    refine ⟨Goroutines.run_outClosed envR envW hW _ ?_ n hn, ?_, ?_⟩
    · intro p hp
      simp only [listServicePrincipalOwnersGoroutines, List.mem_map] at hp
      obtain ⟨ids, _, rfl⟩ := hp
      exact servicePrincipalOwnersWorker_panicFree client ids
    · rcases h1 with h | h
      · left
        simp only [Goroutines.idsClosed, Goroutines.run, listServicePrincipalOwnersGoroutines,
          servicePrincipalOwnersReader, OrDone, h, Proc.returned]
      · right
        simp only [Goroutines.run, listServicePrincipalOwnersGoroutines,
          servicePrincipalOwnersReader, OrDone, h]
    · intro hw
      simp only [Goroutines.idsClosed, Goroutines.run, listServicePrincipalOwnersGoroutines,
        servicePrincipalOwnersReader, OrDone, h2 hw, Proc.returned]

/-- An instance of the amended C10.  Without a receiver and with the signal fired
from step 1 on, a worker of `listResourceGroups` that has taken an ok item is
still at its send after five steps.  With every send received and the signal
never fired, the goroutines of `listResourceGroups` on one subscription have
closed `ids` and the output after six steps, and the worker has delivered its
record; the same worker has not returned when nothing receives. -/
theorem collector_sends_are_unconditional_witness :
    ((∀ i : Nat, ((fun i => Env.mk (decide (1 ≤ i)) false false : Nat → Env) i).receiver = false)
      ∧ (∀ i : Nat, ((fun _ => Env.mk false false true : Nat → Env) i).receiver = true)
      ∧ (∀ w i : Nat,
          ((fun _ _ => Env.mk false false true : Nat → Nat → Env) w i).receiver = true))
    ∧ Proc.runFrom (fun i => Env.mk (decide (1 ≤ i)) false false) 0 5
          (resourceGroupsItems Proc.done [⟨"S1", none, ⟨"g1"⟩⟩], []) =
        (Proc.send (resourceGroupRecord ⟨"S1", none, ⟨"g1"⟩⟩)
          (resourceGroupsItems Proc.done []), [])
    ∧ ((listResourceGroupsGoroutines ⟨fun i => i, []⟩
          ⟨⟨"t", "T"⟩, [], fun _ => [⟨"S1", none, ⟨"g1"⟩⟩], fun _ => [], fun _ => []⟩
          [Dyn.wrapper ⟨Kind.KindAZSubscription,
            Payload.subscription ⟨"/subscriptions/S1", "S1"⟩⟩]).run
          (fun _ => Env.mk false false true) (fun _ _ => Env.mk false false true)
          6).outClosed = true
    ∧ ((listResourceGroupsGoroutines ⟨fun i => i, []⟩
          ⟨⟨"t", "T"⟩, [], fun _ => [⟨"S1", none, ⟨"g1"⟩⟩], fun _ => [], fun _ => []⟩
          [Dyn.wrapper ⟨Kind.KindAZSubscription,
            Payload.subscription ⟨"/subscriptions/S1", "S1"⟩⟩]).run
          (fun _ => Env.mk false false true) (fun _ _ => Env.mk false false true)
          6).idsClosed = true
    ∧ (resourceGroupsWorker
          ⟨⟨"t", "T"⟩, [], fun _ => [⟨"S1", none, ⟨"g1"⟩⟩], fun _ => [], fun _ => []⟩
          ["S1"]).run (fun _ => Env.mk false false true) 6 =
        (Proc.done, [⟨Kind.KindAZResourceGroup, Payload.resourceGroup ⟨⟨"g1"⟩, "S1"⟩⟩])
    ∧ ((resourceGroupsWorker
          ⟨⟨"t", "T"⟩, [], fun _ => [⟨"S1", none, ⟨"g1"⟩⟩], fun _ => [], fun _ => []⟩
          ["S1"]).run (fun _ => Env.mk false false false) 6).1.returned = false :=
  have hB : ∀ i : Nat,
      ((fun i => Env.mk (decide (1 ≤ i)) false false : Nat → Env) i).receiver = false :=
    fun _ => rfl
  have hR : ∀ i : Nat, ((fun _ => Env.mk false false true : Nat → Env) i).receiver = true :=
    fun _ => rfl
  have hW : ∀ w i : Nat,
      ((fun _ _ => Env.mk false false true : Nat → Nat → Env) w i).receiver = true :=
    fun _ _ => rfl
  have h := collector_sends_are_unconditional
    (fun i => Env.mk (decide (1 ≤ i)) false false) (fun _ => Env.mk false false true)
    (fun _ _ => Env.mk false false true) hB hR hW ⟨fun i => i, []⟩
    ⟨⟨"t", "T"⟩, [], fun _ => [⟨"S1", none, ⟨"g1"⟩⟩], fun _ => [], fun _ => []⟩
  have hc := h.2.2.2.2.2.2.1
    [Dyn.wrapper ⟨Kind.KindAZSubscription, Payload.subscription ⟨"/subscriptions/S1", "S1"⟩⟩]
    6 (by decide)
  ⟨⟨hB, hR, hW⟩,
    h.2.2.1 Proc.done ⟨"S1", none, ⟨"g1"⟩⟩ [] 0 3 [] rfl rfl,
    hc.1,
    hc.2.2 (fun d hd => by
      rw [List.mem_singleton] at hd
      exact ⟨_, hd⟩),
    rfl, rfl⟩

end AzureHound
